import Mathlib

/-!
Verification of the speech-evaluation system core (speech_analyzer).

Shallow embedding of the Python sources:
  - src/speech_analyzer/services/llm.py   (TextProcessor, LLMService)
  - src/speech_analyzer/services/stt.py   (AudioRecorder, OpenAISTTClient, STTService)
  - src/speech_analyzer/services/evaluation.py (EvaluationService)
  - src/speech_analyzer/config.py         (get_evaluation_thresholds)

Python exceptions are modelled with an explicit error type and Except;
external collaborators (the OpenAI backends, the json decoder, the file
system, the audio device) are modelled as oracles passed in explicitly.
Machine floats are modelled as rationals: the code only compares, clamps
and stores them, which is exact.
-/

namespace SpeechEval

/-! ### Python-like characters and strings

Python str.strip() removes the whitespace characters below from both ends;
re's defaults are modelled with the same set. -/

def pyWsChar (c : Char) : Bool :=
  c == ' ' || c == '\t' || c == '\n' || c == '\r' || c == '\x0b' || c == '\x0c'

/-- Both-ends whitespace strip on a character list, Python str.strip(). -/
def stripEnds (l : List Char) : List Char :=
  List.rdropWhile pyWsChar (List.dropWhile pyWsChar l)

/-- Python str.strip() on strings. -/
def pyStrip (s : String) : String :=
  (stripEnds s.toList).asString

/-- Does the needle occur as a contiguous sublist of the haystack
(Python "needle in haystack" on strings)? -/
def startsWithChars : List Char → List Char → Bool
  | _, [] => true
  | [], _ :: _ => false
  | a :: as, b :: bs => a == b && startsWithChars as bs

def containsChars : List Char → List Char → Bool
  | [], n => startsWithChars [] n
  | a :: t, n => startsWithChars (a :: t) n || containsChars t n

def strContainsSub (hay needle : String) : Bool :=
  containsChars hay.toList needle.toList

/-! ### Python exceptions -/

inductive PyError where
  | valueError (msg : String)
  | runtimeError (msg : String)
  | fileNotFoundError (msg : String)
  | attributeError (msg : String)
  | typeError (msg : String)
deriving DecidableEq, Repr

/-- The message carried by an exception, Python str(e). -/
def PyError.msg : PyError → String
  | .valueError m => m
  | .runtimeError m => m
  | .fileNotFoundError m => m
  | .attributeError m => m
  | .typeError m => m

/-- The exception classes caught by `except (RuntimeError, ValueError)`,
the only handler appearing in evaluation.py and the service wrappers. -/
def PyError.catchableRV : PyError → Bool
  | .valueError _ => true
  | .runtimeError _ => true
  | _ => false

/-! ### JSON values (output of json.loads) -/

inductive JValue where
  | null
  | jbool (b : Bool)
  | num (q : ℚ)
  | str (s : String)
  | arr (elems : List JValue)
  | obj (fields : List (String × JValue))

/-- A Python dict with string keys, as produced by json.loads on an object. -/
abbrev JDict := List (String × JValue)

/-- Dict lookup (keys are unique after `canonDict`). -/
def dget : JDict → String → Option JValue
  | [], _ => none
  | p :: rest, k => if p.1 = k then some p.2 else dget rest k

/-- Dict assignment d[k] = v: replace in place, or append when absent. -/
def dinsert : JDict → String → JValue → JDict
  | [], k, v => [(k, v)]
  | p :: rest, k, v => if p.1 = k then (k, v) :: rest else p :: dinsert rest k v

/-- Collapse duplicate keys the way json.loads builds a dict: later
bindings overwrite earlier ones, first-insertion order is kept. -/
def canonDict (d : JDict) : JDict :=
  d.foldl (fun acc p => dinsert acc p.1 p.2) []

/-- Python dict.setdefault(k, v). -/
def setdefault (d : JDict) (k : String) (v : JValue) : JDict :=
  match dget d k with
  | some _ => d
  | none => d ++ [(k, v)]

/-! ### float() coercion

Python float() accepts bools, numbers and decimal strings; None, lists and
dicts raise TypeError, unparseable strings raise ValueError.  The string
parser models plain signed decimals (the code never relies on the exotic
forms). -/

def isDigitCh (c : Char) : Bool := '0' ≤ c && c ≤ '9'

def natOfDigits (l : List Char) : ℕ :=
  l.foldl (fun a c => a * 10 + (c.toNat - 48)) 0

def parsePyFloat (s : String) : Option ℚ :=
  let l := stripEnds s.toList
  let signedTail : ℚ × List Char :=
    match l with
    | c :: rest => if c == '-' then (-1, rest) else if c == '+' then (1, rest) else (1, l)
    | [] => (1, [])
  let body := signedTail.2
  let intPart := body.takeWhile isDigitCh
  let rest := body.dropWhile isDigitCh
  match rest with
  | [] => if intPart.isEmpty then none else some (signedTail.1 * (natOfDigits intPart : ℚ))
  | c :: frac =>
    if c == '.' && frac.all isDigitCh && !(intPart.isEmpty && frac.isEmpty) then
      some (signedTail.1 *
        ((natOfDigits intPart : ℚ) + (natOfDigits frac : ℚ) / ((10 : ℚ) ^ frac.length)))
    else none

inductive FloatCoerce where
  | ok (q : ℚ)
  | typeErr
  | valueErr

def pyFloatOf : JValue → FloatCoerce
  | .num q => .ok q
  | .jbool b => .ok (if b then 1 else 0)
  | .str s =>
    match parsePyFloat s with
    | some q => .ok q
    | none => .valueErr
  | .null => .typeErr
  | .arr _ => .typeErr
  | .obj _ => .typeErr

/-! ### LLMService._parse_comparison_response (llm.py lines 194-238) -/

/-- The default for error_analysis used in required_fields. -/
def default_error_analysis : JValue :=
  .obj [("substitutions", .num 0), ("deletions", .num 0),
        ("insertions", .num 0), ("total_errors", .num 0)]

/-- The required_fields dict literal of _parse_comparison_response,
in its Python insertion order. -/
def required_fields : JDict :=
  [("summary", .str "分析完成"),
   ("accuracy_score", .num 0),
   ("semantic_similarity", .num 0),
   ("error_analysis", default_error_analysis),
   ("key_differences", .arr []),
   ("suggestions", .arr []),
   ("reasoning", .str "")]

/-- The for-loop `result.setdefault(field, default)` over required_fields. -/
def backfillRequired (d : JDict) : JDict :=
  required_fields.foldl (fun acc p => setdefault acc p.1 p.2) d

/-- Python if not isinstance(result["error_analysis"], dict):
result["error_analysis"] = the default. -/
def fixErrorAnalysis (d : JDict) : JDict :=
  match dget d "error_analysis" with
  | some (.obj _) => d
  | _ => dinsert d "error_analysis" default_error_analysis

/-- Python result[k] = max(0, min(100, float(result.get(k, 0)))), with the
failure modes of float() made explicit. -/
def clampScoreField (d : JDict) (k : String) : Except PyError JDict :=
  match pyFloatOf ((dget d k).getD (.num 0)) with
  | .ok q => .ok (dinsert d k (.num (max 0 (min 100 q))))
  | .typeErr => .error (.typeError "float() argument must be a string or a real number")
  | .valueErr => .error (.valueError "could not convert string to float")

/-- The body of _parse_comparison_response after json.loads: backfill of
missing required fields, wholesale replacement of a non-dict
error_analysis, clamping of both scores.  A payload that is not a JSON
object raises AttributeError at result.setdefault (uncaught in the
source). -/
def parse_comparison_obj (j : JValue) : Except PyError JDict :=
  match j with
  | .obj fields =>
    let d2 := fixErrorAnalysis (backfillRequired (canonDict fields))
    (clampScoreField d2 "accuracy_score").bind
      (fun d3 => clampScoreField d3 "semantic_similarity")
  | _ => .error (.attributeError "object has no attribute setdefault")

/-- The code-fence cleaning preceding json.loads. -/
def stripFences (s : String) : String :=
  let c0 := pyStrip s
  let c1 := if c0.startsWith "```json" then c0.drop 7 else c0
  let c2 := if c1.startsWith "```" then c1.drop 3 else c1
  let c3 := if c2.endsWith "```" then c2.dropRight 3 else c2
  pyStrip c3

/-- LLMService._parse_comparison_response.  `loads` is the json.loads
oracle (none = json.JSONDecodeError).  JSONDecodeError and TypeError are
converted to the wrapped RuntimeError by the except clause; ValueError
(from float() on a bad string) and AttributeError (non-dict payload)
escape it, as in the source. -/
def parse_comparison_response (loads : String → Option JValue) (response_text : String) :
    Except PyError JDict :=
  match loads (stripFences response_text) with
  | none => .error (.runtimeError ("無法解析LLM的回應: " ++ response_text))
  | some j =>
    match parse_comparison_obj j with
    | .ok d => .ok d
    | .error (.typeError _) => .error (.runtimeError ("無法解析LLM的回應: " ++ response_text))
    | .error e => .error e

/-! ### Dict lemmas -/

theorem dget_dinsert_self (d : JDict) (k : String) (v : JValue) :
    dget (dinsert d k v) k = some v := by
  induction d with
  | nil => simp [dinsert, dget]
  | cons p rest ih =>
    by_cases h : p.1 = k
    · simp [dinsert, dget, h]
    · simp [dinsert, dget, h, ih]

theorem dget_dinsert_ne (d : JDict) (k k' : String) (v : JValue) (h : k' ≠ k) :
    dget (dinsert d k v) k' = dget d k' := by
  have hkk : ¬(k = k') := fun hh => h hh.symm
  induction d with
  | nil => simp [dinsert, dget, hkk]
  | cons p rest ih =>
    simp only [dinsert]
    by_cases hp : p.1 = k
    · rw [if_pos hp]
      simp [dget, hp, hkk]
    · rw [if_neg hp]
      simp [dget, ih]

theorem dget_append (d1 d2 : JDict) (k : String) :
    dget (d1 ++ d2) k = match dget d1 k with | some v => some v | none => dget d2 k := by
  induction d1 with
  | nil => simp [dget]
  | cons p rest ih =>
    by_cases h : p.1 = k
    · simp [dget, h]
    · simp [dget, h, ih]

theorem dget_setdefault (d : JDict) (k : String) (v : JValue) (k' : String) :
    dget (setdefault d k v) k' =
      match dget d k' with
      | some w => some w
      | none => if k = k' then some v else none := by
  unfold setdefault
  cases hk0 : dget d k with
  | some w0 =>
    cases hk : dget d k' with
    | some w => simp [hk]
    | none =>
      by_cases he : k = k'
      · subst he
        rw [hk0] at hk
        cases hk
      · simp [he]
  | none =>
    rw [dget_append]
    cases hk : dget d k' with
    | some w => rfl
    | none =>
      show dget [(k, v)] k' = if k = k' then some v else none
      by_cases he : k = k'
      · simp [dget, he]
      · simp [dget, he]

theorem dget_foldl_setdefault (ps : JDict) (d : JDict) (k : String) :
    dget (ps.foldl (fun acc p => setdefault acc p.1 p.2) d) k =
      match dget d k with
      | some v => some v
      | none => dget ps k := by
  induction ps generalizing d with
  | nil =>
    cases hd : dget d k with
    | some v => simp [hd, dget]
    | none => simp [hd, dget]
  | cons p rest ih =>
    simp only [List.foldl_cons, ih, dget_setdefault]
    cases hd : dget d k with
    | some v => rfl
    | none =>
      by_cases he : p.1 = k
      · simp [dget, he]
      · simp [dget, he]

theorem dget_backfill (d : JDict) (k : String) :
    dget (backfillRequired d) k =
      match dget d k with
      | some v => some v
      | none => dget required_fields k :=
  dget_foldl_setdefault required_fields d k

theorem dget_fixErrorAnalysis_ne (d : JDict) (k : String) (h : k ≠ "error_analysis") :
    dget (fixErrorAnalysis d) k = dget d k := by
  unfold fixErrorAnalysis
  cases hv : dget d "error_analysis" with
  | none => exact dget_dinsert_ne d "error_analysis" k default_error_analysis h
  | some v =>
    cases v with
    | obj fs => rfl
    | null => exact dget_dinsert_ne d "error_analysis" k default_error_analysis h
    | jbool b => exact dget_dinsert_ne d "error_analysis" k default_error_analysis h
    | num q => exact dget_dinsert_ne d "error_analysis" k default_error_analysis h
    | str s => exact dget_dinsert_ne d "error_analysis" k default_error_analysis h
    | arr es => exact dget_dinsert_ne d "error_analysis" k default_error_analysis h

theorem fixErrorAnalysis_obj (d : JDict) :
    ∃ fs, dget (fixErrorAnalysis d) "error_analysis" = some (.obj fs) := by
  unfold fixErrorAnalysis
  cases hv : dget d "error_analysis" with
  | none =>
    refine ⟨_, dget_dinsert_self d "error_analysis" default_error_analysis⟩
  | some v =>
    cases v with
    | obj fs => exact ⟨fs, hv⟩
    | null => exact ⟨_, dget_dinsert_self d "error_analysis" default_error_analysis⟩
    | jbool b => exact ⟨_, dget_dinsert_self d "error_analysis" default_error_analysis⟩
    | num q => exact ⟨_, dget_dinsert_self d "error_analysis" default_error_analysis⟩
    | str s => exact ⟨_, dget_dinsert_self d "error_analysis" default_error_analysis⟩
    | arr es => exact ⟨_, dget_dinsert_self d "error_analysis" default_error_analysis⟩

theorem fixErrorAnalysis_of_obj (d : JDict) (fs : List (String × JValue))
    (h : dget d "error_analysis" = some (.obj fs)) : fixErrorAnalysis d = d := by
  unfold fixErrorAnalysis
  rw [h]

theorem fixErrorAnalysis_of_not_obj (d : JDict) (v : JValue)
    (h : dget d "error_analysis" = some v) (hno : ∀ fs, v ≠ JValue.obj fs) :
    fixErrorAnalysis d = dinsert d "error_analysis" default_error_analysis := by
  unfold fixErrorAnalysis
  rw [h]
  cases v with
  | obj fs => exact absurd rfl (hno fs)
  | null => rfl
  | jbool b => rfl
  | num q => rfl
  | str s => rfl
  | arr es => rfl

theorem clampScoreField_inv (d : JDict) (k : String) (d' : JDict)
    (h : clampScoreField d k = .ok d') :
    ∃ q, pyFloatOf ((dget d k).getD (.num 0)) = .ok q ∧
      d' = dinsert d k (.num (max 0 (min 100 q))) := by
  unfold clampScoreField at h
  cases hf : pyFloatOf ((dget d k).getD (.num 0)) with
  | ok q =>
    rw [hf] at h
    exact ⟨q, rfl, (Except.ok.injEq _ _).mp h.symm⟩
  | typeErr => rw [hf] at h; exact absurd h (by simp)
  | valueErr => rw [hf] at h; exact absurd h (by simp)

theorem clampScoreField_of_num (d : JDict) (k : String) (q : ℚ)
    (h : dget d k = some (.num q)) :
    clampScoreField d k = .ok (dinsert d k (.num (max 0 (min 100 q)))) := by
  unfold clampScoreField
  rw [h]
  rfl

theorem clamp_nonneg (q : ℚ) : 0 ≤ max 0 (min 100 q) := le_max_left _ _

theorem clamp_le_100 (q : ℚ) : max 0 (min 100 q) ≤ 100 :=
  max_le (by norm_num) (min_le_left _ _)

/-- Every successful parse factors through the object branch:
the loaded value is an object and the result is the two clamps applied
after backfilling and error_analysis repair. -/
theorem parse_response_ok_inv (loads : String → Option JValue) (rt : String) (d : JDict)
    (h : parse_comparison_response loads rt = .ok d) :
    ∃ fields d3,
      loads (stripFences rt) = some (.obj fields) ∧
      clampScoreField (fixErrorAnalysis (backfillRequired (canonDict fields)))
        "accuracy_score" = .ok d3 ∧
      clampScoreField d3 "semantic_similarity" = .ok d := by
  unfold parse_comparison_response at h
  cases hl : loads (stripFences rt) with
  | none => rw [hl] at h; exact absurd h (by simp)
  | some j =>
    rw [hl] at h
    cases j with
    | obj fields =>
      refine ⟨fields, ?_⟩
      simp only [parse_comparison_obj] at h
      cases hc : clampScoreField (fixErrorAnalysis (backfillRequired (canonDict fields)))
          "accuracy_score" with
      | ok d3 =>
        rw [hc] at h
        simp only [Except.bind] at h
        cases hc2 : clampScoreField d3 "semantic_similarity" with
        | ok d4 =>
          rw [hc2] at h
          have hd : d4 = d := by simpa using h
          subst hd
          exact ⟨d3, rfl, rfl, hc2⟩
        | error e =>
          rw [hc2] at h
          cases e <;> simp at h
      | error e =>
        rw [hc] at h
        simp only [Except.bind] at h
        cases e <;> simp at h
    | null => simp [parse_comparison_obj] at h
    | jbool b => simp [parse_comparison_obj] at h
    | num q => simp [parse_comparison_obj] at h
    | str s => simp [parse_comparison_obj] at h
    | arr es => simp [parse_comparison_obj] at h

/-- After a successful parse both scores are stored as numbers. -/
theorem parse_response_scores_num (loads : String → Option JValue) (rt : String) (d : JDict)
    (h : parse_comparison_response loads rt = .ok d) :
    (∃ a, dget d "accuracy_score" = some (.num a) ∧ 0 ≤ a ∧ a ≤ 100) ∧
    (∃ s, dget d "semantic_similarity" = some (.num s) ∧ 0 ≤ s ∧ s ≤ 100) := by
  obtain ⟨fields, d3, _, hc1, hc2⟩ := parse_response_ok_inv loads rt d h
  obtain ⟨q1, _, hd3⟩ := clampScoreField_inv _ _ _ hc1
  obtain ⟨q2, _, hd4⟩ := clampScoreField_inv _ _ _ hc2
  subst hd3 hd4
  constructor
  · refine ⟨max 0 (min 100 q1), ?_, clamp_nonneg q1, clamp_le_100 q1⟩
    rw [dget_dinsert_ne _ _ _ _ (by decide), dget_dinsert_self]
  · exact ⟨max 0 (min 100 q2), dget_dinsert_self _ _ _, clamp_nonneg q2, clamp_le_100 q2⟩

/-- C2: for every backend payload that _parse_comparison_response accepts,
the stored accuracy_score and semantic_similarity lie in [0,100], and a
numeric payload value q is stored as max 0 (min 100 q) — so a value below 0
is stored as 0 and a value above 100 as 100, regardless of backend output. -/
theorem C2_parse_scores_clamped (loads : String → Option JValue) (rt : String) (d : JDict)
    (h : parse_comparison_response loads rt = .ok d) :
    (∃ a, dget d "accuracy_score" = some (.num a) ∧ 0 ≤ a ∧ a ≤ 100) ∧
    (∃ s, dget d "semantic_similarity" = some (.num s) ∧ 0 ≤ s ∧ s ≤ 100) ∧
    (∀ fields q, loads (stripFences rt) = some (.obj fields) →
      dget (canonDict fields) "accuracy_score" = some (.num q) →
      dget d "accuracy_score" = some (.num (max 0 (min 100 q)))) ∧
    (∀ fields q, loads (stripFences rt) = some (.obj fields) →
      dget (canonDict fields) "semantic_similarity" = some (.num q) →
      dget d "semantic_similarity" = some (.num (max 0 (min 100 q)))) := by
  obtain ⟨fields, d3, hl, hc1, hc2⟩ := parse_response_ok_inv loads rt d h
  obtain ⟨hA, hS⟩ := parse_response_scores_num loads rt d h
  refine ⟨hA, hS, ?_, ?_⟩
  · intro fields' q hl' hq
    have hff : fields' = fields := by rw [hl'] at hl; simpa using hl
    subst hff
    have hb : dget (backfillRequired (canonDict fields')) "accuracy_score" =
        some (.num q) := by rw [dget_backfill, hq]
    have hfx : dget (fixErrorAnalysis (backfillRequired (canonDict fields')))
        "accuracy_score" = some (.num q) := by
      rw [dget_fixErrorAnalysis_ne _ _ (by decide)]; exact hb
    rw [clampScoreField_of_num _ _ _ hfx] at hc1
    have hd3 : d3 = dinsert (fixErrorAnalysis (backfillRequired (canonDict fields')))
        "accuracy_score" (.num (max 0 (min 100 q))) := by
      simpa using hc1.symm
    obtain ⟨q2, _, hd4⟩ := clampScoreField_inv _ _ _ hc2
    rw [hd4, dget_dinsert_ne _ _ _ _ (by decide), hd3, dget_dinsert_self]
  · intro fields' q hl' hq
    have hff : fields' = fields := by rw [hl'] at hl; simpa using hl
    subst hff
    obtain ⟨q1, _, hd3⟩ := clampScoreField_inv _ _ _ hc1
    have hb : dget (backfillRequired (canonDict fields')) "semantic_similarity" =
        some (.num q) := by rw [dget_backfill, hq]
    have hfx : dget d3 "semantic_similarity" = some (.num q) := by
      rw [hd3, dget_dinsert_ne _ _ _ _ (by decide),
        dget_fixErrorAnalysis_ne _ _ (by decide)]
      exact hb
    rw [clampScoreField_of_num _ _ _ hfx] at hc2
    have hd4 : d = dinsert d3 "semantic_similarity" (.num (max 0 (min 100 q))) := by
      simpa using hc2.symm
    rw [hd4, dget_dinsert_self]

/-- Witness for C2: the parser accepts a payload whose accuracy_score is 150
and stores the clamped value, which equals 100. -/
theorem C2_parse_scores_clamped_witness :
    dget [("accuracy_score", JValue.num (max 0 (min 100 150))),
          ("summary", JValue.str "分析完成"),
          ("semantic_similarity", JValue.num (max 0 (min 100 0))),
          ("error_analysis", default_error_analysis),
          ("key_differences", JValue.arr []),
          ("suggestions", JValue.arr []),
          ("reasoning", JValue.str "")] "accuracy_score"
      = some (JValue.num (max 0 (min 100 150))) ∧
    max (0 : ℚ) (min 100 150) = 100 := by
  constructor
  · exact (C2_parse_scores_clamped
      (fun _ => some (JValue.obj [("accuracy_score", JValue.num 150)])) "x" _ rfl).2.2.1
      [("accuracy_score", JValue.num 150)] 150 rfl rfl
  · norm_num

/-- C4: for every parseable backend payload, the report returned by
_parse_comparison_response contains all seven required fields; any field
missing from the payload is backfilled with its default (in particular a
missing key_differences becomes the empty list), and an error_analysis that
is not a mapping is replaced wholesale with the default error_analysis. -/
theorem C4_required_fields_backfilled (loads : String → Option JValue) (rt : String) (d : JDict)
    (h : parse_comparison_response loads rt = .ok d) :
    (∀ p ∈ required_fields, (dget d p.1).isSome) ∧
    (∃ ea, dget d "error_analysis" = some (.obj ea)) ∧
    (∀ fields, loads (stripFences rt) = some (.obj fields) →
      (dget (canonDict fields) "key_differences" = none →
        dget d "key_differences" = some (.arr [])) ∧
      (dget (canonDict fields) "suggestions" = none →
        dget d "suggestions" = some (.arr [])) ∧
      (dget (canonDict fields) "summary" = none →
        dget d "summary" = some (.str "分析完成")) ∧
      (dget (canonDict fields) "reasoning" = none →
        dget d "reasoning" = some (.str "")) ∧
      (∀ v, dget (canonDict fields) "error_analysis" = some v →
        (∀ fs, v ≠ JValue.obj fs) →
        dget d "error_analysis" = some default_error_analysis) ∧
      (dget (canonDict fields) "error_analysis" = none →
        dget d "error_analysis" = some default_error_analysis)) := by
  obtain ⟨fields, d3, hl, hc1, hc2⟩ := parse_response_ok_inv loads rt d h
  obtain ⟨q1, hq1, hd3⟩ := clampScoreField_inv _ _ _ hc1
  obtain ⟨q2, hq2, hd4⟩ := clampScoreField_inv _ _ _ hc2
  have transfer : ∀ k : String, k ≠ "accuracy_score" → k ≠ "semantic_similarity" →
      k ≠ "error_analysis" →
      dget d k = dget (backfillRequired (canonDict fields)) k := by
    intro k hka hks hke
    rw [hd4, dget_dinsert_ne _ _ _ _ hks, hd3, dget_dinsert_ne _ _ _ _ hka,
      dget_fixErrorAnalysis_ne _ _ hke]
  have transferEA : dget d "error_analysis" =
      dget (fixErrorAnalysis (backfillRequired (canonDict fields))) "error_analysis" := by
    rw [hd4, dget_dinsert_ne _ _ _ _ (by decide), hd3,
      dget_dinsert_ne _ _ _ _ (by decide)]
  refine ⟨?_, ?_, ?_⟩
  · intro p hp
    simp only [required_fields, List.mem_cons, List.not_mem_nil, or_false] at hp
    rcases hp with rfl | rfl | rfl | rfl | rfl | rfl | rfl
    · show (dget d "summary").isSome
      rw [transfer "summary" (by decide) (by decide) (by decide), dget_backfill]
      cases dget (canonDict fields) "summary" <;> rfl
    · show (dget d "accuracy_score").isSome
      rw [hd4, dget_dinsert_ne _ _ _ _ (by decide), hd3, dget_dinsert_self]
      rfl
    · show (dget d "semantic_similarity").isSome
      rw [hd4, dget_dinsert_self]
      rfl
    · show (dget d "error_analysis").isSome
      obtain ⟨fs, hfs⟩ := fixErrorAnalysis_obj (backfillRequired (canonDict fields))
      rw [transferEA, hfs]
      rfl
    · show (dget d "key_differences").isSome
      rw [transfer "key_differences" (by decide) (by decide) (by decide), dget_backfill]
      cases dget (canonDict fields) "key_differences" <;> rfl
    · show (dget d "suggestions").isSome
      rw [transfer "suggestions" (by decide) (by decide) (by decide), dget_backfill]
      cases dget (canonDict fields) "suggestions" <;> rfl
    · show (dget d "reasoning").isSome
      rw [transfer "reasoning" (by decide) (by decide) (by decide), dget_backfill]
      cases dget (canonDict fields) "reasoning" <;> rfl
  · obtain ⟨fs, hfs⟩ := fixErrorAnalysis_obj (backfillRequired (canonDict fields))
    exact ⟨fs, by rw [transferEA]; exact hfs⟩
  · intro fields' hl'
    have hff : fields' = fields := by rw [hl'] at hl; simpa using hl
    subst hff
    refine ⟨?_, ?_, ?_, ?_, ?_, ?_⟩
    · intro hnone
      rw [transfer "key_differences" (by decide) (by decide) (by decide),
        dget_backfill, hnone]
      rfl
    · intro hnone
      rw [transfer "suggestions" (by decide) (by decide) (by decide),
        dget_backfill, hnone]
      rfl
    · intro hnone
      rw [transfer "summary" (by decide) (by decide) (by decide),
        dget_backfill, hnone]
      rfl
    · intro hnone
      rw [transfer "reasoning" (by decide) (by decide) (by decide),
        dget_backfill, hnone]
      rfl
    · intro v hv hvno
      have hb : dget (backfillRequired (canonDict fields')) "error_analysis" =
          some v := by rw [dget_backfill, hv]
      rw [transferEA, fixErrorAnalysis_of_not_obj _ v hb hvno, dget_dinsert_self]
    · intro hnone
      have hb : dget (backfillRequired (canonDict fields')) "error_analysis" =
          some default_error_analysis := by rw [dget_backfill, hnone]; rfl
      rw [transferEA, fixErrorAnalysis_of_obj _ _ hb, hb]

/-- Witness for C4: a payload carrying only a non-mapping error_analysis is
accepted; key_differences is backfilled to the empty list and
error_analysis is replaced wholesale with the default mapping. -/
theorem C4_required_fields_backfilled_witness :
    dget [("error_analysis", default_error_analysis),
          ("summary", JValue.str "分析完成"),
          ("accuracy_score", JValue.num (max 0 (min 100 0))),
          ("semantic_similarity", JValue.num (max 0 (min 100 0))),
          ("key_differences", JValue.arr []),
          ("suggestions", JValue.arr []),
          ("reasoning", JValue.str "")] "key_differences" = some (JValue.arr []) ∧
    dget [("error_analysis", default_error_analysis),
          ("summary", JValue.str "分析完成"),
          ("accuracy_score", JValue.num (max 0 (min 100 0))),
          ("semantic_similarity", JValue.num (max 0 (min 100 0))),
          ("key_differences", JValue.arr []),
          ("suggestions", JValue.arr []),
          ("reasoning", JValue.str "")] "error_analysis" = some default_error_analysis := by
  have hmain := (C4_required_fields_backfilled
    (fun _ => some (JValue.obj [("error_analysis", JValue.str "bad")])) "x" _ rfl).2.2
    [("error_analysis", JValue.str "bad")] rfl
  exact ⟨hmain.1 rfl, hmain.2.2.2.2.1 (JValue.str "bad") rfl (fun fs hf => by cases hf)⟩

/-! ### LLMService._call_openai_api (llm.py lines 169-192)

The chat backend is an oracle from the attempt number to an outcome; only
openai.APIError is caught by the retry logic. -/

inductive LLMOutcome where
  | ok (content : String)
  | apiErr (msg : String)

/-- The retry recursion `self._call_openai_api(prompt, retry_count + 1)`.
Recursion happens only while retry_count < 2, so fuel 3 is exact for any
start value. -/
def call_api_aux (api : Nat → LLMOutcome) : Nat → Nat → Except PyError String
  | 0, _ => .error (.runtimeError "OpenAI API 呼叫失敗")
  | fuel + 1, retry_count =>
    match api retry_count with
    | .ok content => .ok (pyStrip content)
    | .apiErr _ =>
      if retry_count < 2 then call_api_aux api fuel (retry_count + 1)
      else .error (.runtimeError "OpenAI API 呼叫失敗")

def call_openai_api (api : Nat → LLMOutcome) (retry_count : Nat) : Except PyError String :=
  call_api_aux api 3 retry_count

/-- LLMService.compare_text_accuracy (llm.py lines 63-89).  The few-shot
prompt built from the normalized inputs only feeds the opaque backend, so
its text is not modelled.  The except clause wraps APIError, RuntimeError
and ValueError into RuntimeError; an AttributeError from the parse step
(non-dict payload) escapes it, as in the source. -/
def compare_text_accuracy (api : Nat → LLMOutcome) (loads : String → Option JValue)
    (transcribed_text reference_text : String) : Except PyError JDict :=
  if pyStrip transcribed_text = "" then .error (.valueError "轉錄文字不能為空")
  else if pyStrip reference_text = "" then .error (.valueError "標準文本不能為空")
  else
    match (call_openai_api api 0).bind (fun rt => parse_comparison_response loads rt) with
    | .ok d => .ok d
    | .error (.runtimeError m) => .error (.runtimeError ("AI 分析過程發生錯誤: " ++ m))
    | .error (.valueError m) => .error (.runtimeError ("AI 分析過程發生錯誤: " ++ m))
    | .error e => .error e

/-- Module-level compare_text_accuracy (llm.py lines 250-257): the global
llm_service may be None when initialization failed. -/
def module_compare_text_accuracy (llm : Option (Nat → LLMOutcome))
    (loads : String → Option JValue) (transcribed_text reference_text : String) :
    Except PyError JDict :=
  match llm with
  | none => .error (.runtimeError "文字比對分析服務不可用")
  | some api => compare_text_accuracy api loads transcribed_text reference_text

/-! ### OpenAISTTClient and STTService (stt.py lines 165-287) -/

inductive SttOutcome where
  | ok (text : String)
  | apiErr (msg : String)
  | ioErr (msg : String)

structure SttEnv where
  fs_exists : String → Bool
  fs_size : String → Nat
  backend : SttOutcome

/-- ASCII lower-casing, Python str.lower() restricted to ASCII letters
(sufficient for every string the code lower-cases). -/
def pyLowerChar (c : Char) : Char :=
  if 65 ≤ c.toNat ∧ c.toNat ≤ 90 then Char.ofNat (c.toNat + 32) else c

def pyLowerStr (s : String) : String := (s.toList.map pyLowerChar).asString

/-- Byte count as megabytes with one decimal, f-string {size/1024/1024:.1f}.
Rounds to the nearest tenth; no claim depends on the rounding rule. -/
def fmtMB (size : Nat) : String :=
  let tenths := (size * 10 + 524288) / 1048576
  toString (tenths / 10) ++ "." ++ toString (tenths % 10)

/-- OpenAISTTClient._handle_transcription_error (stt.py lines 235-246),
keyed on str(error) as in the source. -/
def handle_transcription_error (error_msg : String) : PyError :=
  if strContainsSub error_msg "Unrecognized file format" then
    .valueError "檔案格式不被支援或檔案損壞"
  else if strContainsSub (pyLowerStr error_msg) "file too large" then
    .valueError "檔案超過 25MB 限制"
  else
    .runtimeError ("語音識別檔案處理失敗: " ++ error_msg)

/-- OpenAISTTClient.transcribe_audio (stt.py lines 181-233).  The four
precondition checks precede the backend call; the empty-transcript
ValueError raised inside the try block is re-dispatched through
_handle_transcription_error by the except (IOError, ValueError) clause. -/
def client_transcribe_audio (env : SttEnv) (audio_file_path : String) :
    Except PyError (String × ℚ) :=
  if audio_file_path = "" then .error (.valueError "音頻檔案路徑不能為空")
  else if env.fs_exists audio_file_path = false then
    .error (.fileNotFoundError ("音頻檔案不存在: " ++ audio_file_path))
  else if 25 * 1024 * 1024 < env.fs_size audio_file_path then
    .error (.valueError
      ("檔案過大: " ++ fmtMB (env.fs_size audio_file_path) ++ "MB，超過 25MB 限制"))
  else if env.fs_size audio_file_path < 1024 then
    .error (.valueError "檔案過小，可能沒有有效的音頻內容")
  else
    match env.backend with
    | .ok text =>
      if pyStrip text = "" then
        .error (handle_transcription_error "無法識別語音內容，檔案可能損壞或不包含語音")
      else .ok (pyStrip text, 1)
    | .apiErr m => .error (.runtimeError ("OpenAI 服務錯誤: " ++ m))
    | .ioErr m => .error (handle_transcription_error m)

/-- STTService.transcribe_audio (stt.py lines 263-271): wraps RuntimeError
and ValueError into RuntimeError("語音識別失敗: ..."); a FileNotFoundError
from the client passes through untouched. -/
def sttservice_transcribe_audio (env : SttEnv) (audio_file_path : String) :
    Except PyError (String × ℚ) :=
  if audio_file_path = "" then .error (.valueError "音頻檔案路徑不能為空")
  else
    match client_transcribe_audio env audio_file_path with
    | .ok r => .ok r
    | .error (.runtimeError m) => .error (.runtimeError ("語音識別失敗: " ++ m))
    | .error (.valueError m) => .error (.runtimeError ("語音識別失敗: " ++ m))
    | .error e => .error e

/-! ### AudioRecorder (stt.py lines 22-162)

State is the recorder's mutable fields; frames are opaque; the audio
device, stream open, stream/device teardown and WAV save are environment
outcomes.  The capture thread itself always launches (its frames appear in
audio_data); teardown calls may raise IOError, which _cleanup_audio
swallows. -/

structure RecState where
  is_recording : Bool
  audio_data : List Nat
  audio : Bool
  stream : Bool
deriving DecidableEq, Repr

structure RecEnv where
  device_count : Nat
  open_ok : Bool
  stream_close_ok : Bool
  terminate_ok : Bool
  save_ok : Bool
  temp_path : String
deriving DecidableEq, Repr

/-- AudioRecorder._cleanup_audio (stt.py lines 138-149).  The statements
run in order inside one try block; the first IOError jumps to the except
clause, leaving the remaining fields untouched. -/
def cleanup_audio (env : RecEnv) (s : RecState) : RecState :=
  if s.stream then
    if env.stream_close_ok then
      let s1 : RecState := { s with stream := false }
      if s1.audio then
        if env.terminate_ok then { s1 with audio := false } else s1
      else s1
    else s
  else if s.audio then
    if env.terminate_ok then { s with audio := false } else s
  else s

/-- AudioRecorder.start_recording (stt.py lines 44-76). -/
def start_recording (env : RecEnv) (s : RecState) : Bool × RecState :=
  if s.is_recording then (false, s)
  else
    let s1 : RecState := { s with audio := true }
    if env.device_count = 0 then (false, cleanup_audio env s1)
    else if env.open_ok = false then (false, cleanup_audio env s1)
    else (true, { s1 with stream := true, audio_data := [], is_recording := true })

/-- AudioRecorder.stop_recording (stt.py lines 78-103). -/
def stop_recording (env : RecEnv) (s : RecState) : Option String × RecState :=
  if s.is_recording = false then (none, s)
  else
    let s1 : RecState := { s with is_recording := false }
    if s1.audio_data.isEmpty then (none, cleanup_audio env s1)
    else if env.save_ok then (some env.temp_path, cleanup_audio env s1)
    else (none, cleanup_audio env s1)

/-- AudioRecorder.get_recording_duration (stt.py lines 151-156). -/
def get_recording_duration (s : RecState) : ℚ :=
  if !s.is_recording || s.audio_data.isEmpty then 0
  else ((s.audio_data.length * 1024 : ℕ) : ℚ) / 16000

/-! ### Module-level STT facade (stt.py lines 290-331) -/

structure STTServiceModel where
  env : SttEnv
  recorder : RecState

def module_transcribe_audio (svc : Option STTServiceModel) (path : String) :
    Except PyError (String × ℚ) :=
  match svc with
  | none => .error (.runtimeError "STT 服務不可用")
  | some m => sttservice_transcribe_audio m.env path

def module_start_recording (svc : Option STTServiceModel) (renv : RecEnv) :
    Except PyError (Bool × RecState) :=
  match svc with
  | none => .error (.runtimeError "STT 服務不可用")
  | some m => .ok (start_recording renv m.recorder)

def module_stop_recording (svc : Option STTServiceModel) (renv : RecEnv) :
    Except PyError (Option String × RecState) :=
  match svc with
  | none => .error (.runtimeError "STT 服務不可用")
  | some m => .ok (stop_recording renv m.recorder)

def module_is_recording (svc : Option STTServiceModel) : Bool :=
  match svc with
  | none => false
  | some m => m.recorder.is_recording

def module_get_recording_duration (svc : Option STTServiceModel) : ℚ :=
  match svc with
  | none => 0
  | some m => get_recording_duration m.recorder

/-! ### Substring helper -/

theorem containsChars_append_right (a b n : List Char)
    (h : containsChars b n = true) : containsChars (a ++ b) n = true := by
  induction a with
  | nil => simpa using h
  | cons x rest ih =>
    simp only [List.cons_append, containsChars, Bool.or_eq_true]
    exact Or.inr ih

theorem strContainsSub_append_right (a b n : String)
    (h : strContainsSub b n = true) : strContainsSub (a ++ b) n = true := by
  unfold strContainsSub at *
  have : (a ++ b).toList = a.toList ++ b.toList := by
    simp [String.toList]
  rw [this]
  exact containsChars_append_right _ _ _ h

/-- C6: OpenAISTTClient.transcribe_audio raises a distinct failure for each
violated precondition, checked before any backend call (the conclusion
holds for every backend outcome): empty path raises ValueError, a missing
file raises FileNotFoundError, a file over 25MB (25*1024*1024 bytes)
raises a ValueError whose message states the 25MB limit, and a file under
1KB (1024 bytes) raises the likely-empty-content ValueError; the four
failures are pairwise distinct. -/
theorem C6_transcribe_preconditions (fsx : String → Bool) (fss : String → Nat)
    (backend : SttOutcome) (path : String) :
    (path = "" →
      client_transcribe_audio ⟨fsx, fss, backend⟩ path =
        .error (.valueError "音頻檔案路徑不能為空")) ∧
    (path ≠ "" → fsx path = false →
      client_transcribe_audio ⟨fsx, fss, backend⟩ path =
        .error (.fileNotFoundError ("音頻檔案不存在: " ++ path))) ∧
    (path ≠ "" → fsx path = true → 25 * 1024 * 1024 < fss path →
      client_transcribe_audio ⟨fsx, fss, backend⟩ path =
        .error (.valueError ("檔案過大: " ++ fmtMB (fss path) ++ "MB，超過 25MB 限制")) ∧
      strContainsSub ("檔案過大: " ++ fmtMB (fss path) ++ "MB，超過 25MB 限制") "25MB"
        = true) ∧
    (path ≠ "" → fsx path = true → ¬(25 * 1024 * 1024 < fss path) → fss path < 1024 →
      client_transcribe_audio ⟨fsx, fss, backend⟩ path =
        .error (.valueError "檔案過小，可能沒有有效的音頻內容")) ∧
    ((PyError.valueError "音頻檔案路徑不能為空" ≠
        PyError.fileNotFoundError ("音頻檔案不存在: " ++ path)) ∧
      (PyError.valueError "音頻檔案路徑不能為空" ≠
        PyError.valueError "檔案過小，可能沒有有效的音頻內容") ∧
      (PyError.valueError ("檔案過大: " ++ fmtMB (fss path) ++ "MB，超過 25MB 限制") ≠
        PyError.valueError "檔案過小，可能沒有有效的音頻內容")) := by
  refine ⟨?_, ?_, ?_, ?_, ?_, ?_, ?_⟩
  · intro hp
    simp [client_transcribe_audio, hp]
  · intro hp hx
    simp [client_transcribe_audio, hp, hx]
  · intro hp hx hbig
    constructor
    · simp [client_transcribe_audio, hp, hx, hbig]
    · exact strContainsSub_append_right _ _ _ (by decide)
  · intro hp hx hnb hsmall
    simp [client_transcribe_audio, hp, hx, hnb, hsmall]
  · simp
  · intro hcontra
    have hmsg : "音頻檔案路徑不能為空" = "檔案過小，可能沒有有效的音頻內容" := by
      injection hcontra
    exact absurd hmsg (by decide)
  · intro hcontra
    have hmsg : "檔案過大: " ++ fmtMB (fss path) ++ "MB，超過 25MB 限制" =
        "檔案過小，可能沒有有效的音頻內容" := by injection hcontra
    have hsub : strContainsSub "檔案過小，可能沒有有效的音頻內容" "25MB" = true := by
      rw [← hmsg]
      exact strContainsSub_append_right _ _ _ (by decide)
    exact absurd hsub (by decide)

/-- Witness for C6: a 30MB file is rejected with the too-large ValueError
whose message mentions 25MB, for an arbitrary backend. -/
theorem C6_transcribe_preconditions_witness :
    client_transcribe_audio
        ⟨fun _ => true, fun _ => 30 * 1024 * 1024, SttOutcome.ok "hello"⟩ "a.wav" =
      .error (.valueError
        ("檔案過大: " ++ fmtMB (30 * 1024 * 1024) ++ "MB，超過 25MB 限制")) ∧
    strContainsSub ("檔案過大: " ++ fmtMB (30 * 1024 * 1024) ++ "MB，超過 25MB 限制")
      "25MB" = true :=
  (C6_transcribe_preconditions (fun _ => true) (fun _ => 30 * 1024 * 1024)
    (SttOutcome.ok "hello") "a.wav").2.2.1 (by decide) rfl (by norm_num)

/-- Counterexample to C7 as stated: the successful response " hi " is not
returned unchanged — _call_openai_api returns content.strip(). -/
theorem C7_counterexample :
    call_openai_api (fun _ => LLMOutcome.ok " hi ") 0 = .ok "hi" ∧
    call_openai_api (fun _ => LLMOutcome.ok " hi ") 0 ≠ .ok " hi " := by
  refine ⟨rfl, ?_⟩
  intro hcontra
  have h2 : (Except.ok "hi" : Except PyError String) = Except.ok " hi " := by
    rw [← hcontra]
    rfl
  have h3 : "hi" = " hi " := by injection h2
  exact absurd h3 (by decide)

/-- C7 (amended): the chat backend is attempted at most 3 times in total —
the result depends only on attempts 0..2; when all three attempts raise
APIError the wrapped RuntimeError("OpenAI API 呼叫失敗") is raised; the
first successful attempt ends the retry loop and its content is returned
with surrounding whitespace stripped; a parse failure of a successful
response is not retried (the comparison result is already determined by
attempt 0). -/
theorem C7_retry_bounded_amended :
    (∀ api : Nat → LLMOutcome,
      (∀ i, i ≤ 2 → ∃ m, api i = .apiErr m) →
      call_openai_api api 0 = .error (.runtimeError "OpenAI API 呼叫失敗")) ∧
    (∀ api : Nat → LLMOutcome, ∀ k, k ≤ 2 → ∀ c,
      api k = .ok c → (∀ j, j < k → ∃ m, api j = .apiErr m) →
      call_openai_api api 0 = .ok (pyStrip c)) ∧
    (∀ api api' : Nat → LLMOutcome,
      (∀ i, i ≤ 2 → api i = api' i) →
      call_openai_api api 0 = call_openai_api api' 0) ∧
    (∀ (loads : String → Option JValue) (api : Nat → LLMOutcome) (t r c : String),
      pyStrip t ≠ "" → pyStrip r ≠ "" → api 0 = .ok c →
      loads (stripFences (pyStrip c)) = none →
      compare_text_accuracy api loads t r =
        .error (.runtimeError ("AI 分析過程發生錯誤: " ++
          ("無法解析LLM的回應: " ++ pyStrip c)))) := by
  refine ⟨?_, ?_, ?_, ?_⟩
  · intro api hfail
    obtain ⟨m0, h0⟩ := hfail 0 (by norm_num)
    obtain ⟨m1, h1⟩ := hfail 1 (by norm_num)
    obtain ⟨m2, h2⟩ := hfail 2 (by norm_num)
    simp [call_openai_api, call_api_aux, h0, h1, h2]
  · intro api k hk c hok hprev
    interval_cases k
    · simp [call_openai_api, call_api_aux, hok]
    · obtain ⟨m0, h0⟩ := hprev 0 (by norm_num)
      simp [call_openai_api, call_api_aux, h0, hok]
    · obtain ⟨m0, h0⟩ := hprev 0 (by norm_num)
      obtain ⟨m1, h1⟩ := hprev 1 (by norm_num)
      simp [call_openai_api, call_api_aux, h0, h1, hok]
  · intro api api' hagree
    have e0 := hagree 0 (by norm_num)
    have e1 := hagree 1 (by norm_num)
    have e2 := hagree 2 (by norm_num)
    simp only [call_openai_api, call_api_aux, e0, e1, e2]
  · intro loads api t r c ht hr hok hbad
    have hcall : call_openai_api api 0 = .ok (pyStrip c) := by
      simp [call_openai_api, call_api_aux, hok]
    simp [compare_text_accuracy, ht, hr, hcall, Except.bind,
      parse_comparison_response, hbad]

/-- Witness for C7: with a backend failing on every attempt the wrapped
failure is raised. -/
theorem C7_retry_bounded_amended_witness :
    call_openai_api (fun _ => LLMOutcome.apiErr "boom") 0 =
      .error (.runtimeError "OpenAI API 呼叫失敗") :=
  C7_retry_bounded_amended.1 (fun _ => LLMOutcome.apiErr "boom")
    (fun _ _ => ⟨"boom", rfl⟩)

/-- Counterexample to C8 as stated: stopping an active recording whose
stream teardown raises IOError leaves the stream handle held —
_cleanup_audio swallows the exception before clearing the fields, so the
device/stream is not released after this stop_recording call. -/
theorem C8_counterexample :
    ((stop_recording
        { device_count := 1, open_ok := true, stream_close_ok := false,
          terminate_ok := true, save_ok := true, temp_path := "t.wav" }
        { is_recording := true, audio_data := [], audio := true, stream := true }).2.stream
      = true) ∧
    ((stop_recording
        { device_count := 1, open_ok := true, stream_close_ok := false,
          terminate_ok := true, save_ok := true, temp_path := "t.wav" }
        { is_recording := true, audio_data := [], audio := true, stream := true }).2.audio
      = true) := by
  decide

/-- C8 (amended): start_recording during an active recording returns false
and leaves the state (including the buffer) unchanged; stop_recording when
not recording returns empty with no side effects; stop_recording with an
empty buffer returns empty; after any stop_recording is_recording is
false; and the device/stream handles are released by stop_recording on an
active recording provided the underlying teardown calls do not themselves
raise. -/
theorem C8_recording_lifecycle_amended (env : RecEnv) (s : RecState) :
    (s.is_recording = true → start_recording env s = (false, s)) ∧
    (s.is_recording = false → stop_recording env s = (none, s)) ∧
    (s.is_recording = true → s.audio_data = [] → (stop_recording env s).1 = none) ∧
    ((stop_recording env s).2.is_recording = false) ∧
    (s.is_recording = true → env.stream_close_ok = true → env.terminate_ok = true →
      (stop_recording env s).2.stream = false ∧ (stop_recording env s).2.audio = false) := by
  obtain ⟨rec, buf, aud, str⟩ := s
  obtain ⟨dc, opok, sclose, term, save, tp⟩ := env
  refine ⟨?_, ?_, ?_, ?_, ?_⟩
  · intro h
    subst h
    simp [start_recording]
  · intro h
    subst h
    simp [stop_recording]
  · intro h hbuf
    subst h hbuf
    simp only [stop_recording]
    by_cases hsave : save <;> simp [hsave]
  · cases rec with
    | false => simp [stop_recording]
    | true =>
      simp only [stop_recording, cleanup_audio]
      by_cases h1 : buf.isEmpty <;> by_cases h2 : save <;>
        by_cases h3 : str <;> by_cases h4 : sclose <;> by_cases h5 : aud <;>
        by_cases h6 : term <;> simp [h1, h2, h3, h4, h5, h6]
  · intro h hc ht
    subst h hc ht
    simp only [stop_recording, cleanup_audio]
    by_cases h1 : buf.isEmpty <;> by_cases h2 : save <;>
      by_cases h3 : str <;> by_cases h5 : aud <;> simp [h1, h2, h3, h5]

/-- Witness for C8: stopping an active recording in an environment where
the teardown calls succeed releases both handles. -/
theorem C8_recording_lifecycle_amended_witness :
    (stop_recording
        { device_count := 1, open_ok := true, stream_close_ok := true,
          terminate_ok := true, save_ok := true, temp_path := "t.wav" }
        { is_recording := true, audio_data := [7], audio := true, stream := true }).2.stream
      = false ∧
    (stop_recording
        { device_count := 1, open_ok := true, stream_close_ok := true,
          terminate_ok := true, save_ok := true, temp_path := "t.wav" }
        { is_recording := true, audio_data := [7], audio := true, stream := true }).2.audio
      = false :=
  (C8_recording_lifecycle_amended
    { device_count := 1, open_ok := true, stream_close_ok := true,
      terminate_ok := true, save_ok := true, temp_path := "t.wav" }
    { is_recording := true, audio_data := [7], audio := true, stream := true }).2.2.2.2
    rfl rfl rfl

/-- C10: when the global stt_service failed to initialize (None), the
module-level query functions is_recording and get_recording_duration
return the safe defaults false and 0 without raising, while the
module-level transcribe_audio, start_recording and stop_recording raise
RuntimeError("STT 服務不可用"). -/
theorem C10_module_guards_when_uninitialized (renv : RecEnv) (path : String) :
    module_is_recording none = false ∧
    module_get_recording_duration none = 0 ∧
    module_transcribe_audio none path = .error (.runtimeError "STT 服務不可用") ∧
    module_start_recording none renv = .error (.runtimeError "STT 服務不可用") ∧
    module_stop_recording none renv = .error (.runtimeError "STT 服務不可用") :=
  ⟨rfl, rfl, rfl, rfl, rfl⟩

/-! ### config.py: evaluation thresholds (lines 61-73 and 139-146) -/

structure EvalConfig where
  text_normalization : Bool
  punctuation_ignore : Bool
  case_sensitive : Bool
  min_similarity_threshold : ℚ
  high_accuracy_threshold : ℚ

structure Thresholds where
  excellent : ℚ
  good : ℚ
  fair : ℚ
  poor : ℚ

def get_evaluation_thresholds (cfg : EvalConfig) : Thresholds :=
  { excellent := cfg.high_accuracy_threshold
    good := max 75 cfg.min_similarity_threshold
    fair := cfg.min_similarity_threshold
    poor := 0 }

/-! ### EvaluationService._calculate_evaluation_metrics (evaluation.py 150-173) -/

/-- Python comparison `v >= (q : float)` on a JSON value: numbers and bools
compare numerically, anything else raises TypeError. -/
def pyGeJ (v : JValue) (q : ℚ) : Except PyError Bool :=
  match v with
  | .num a => .ok (decide (q ≤ a))
  | .jbool b => .ok (decide (q ≤ (if b then (1 : ℚ) else 0)))
  | _ => .error (.typeError "comparison not supported between these operand types")

structure MetricsDict where
  accuracy_score : JValue
  semantic_similarity : JValue
  accuracy_level : String
  confidence : ℚ
  processing_status : String

/-- The metric computation: stores the raw score values and derives the
accuracy level from the ordered threshold chain.  The chained `>=`
comparisons can raise TypeError on a non-numeric score (unreachable
through the parser, whose scores are always numbers). -/
def calculate_evaluation_metrics (cfg : EvalConfig) (comparison : JDict)
    (confidence : ℚ) : Except PyError MetricsDict :=
  let accuracy_score := (dget comparison "accuracy_score").getD (.num 0)
  let semantic_similarity := (dget comparison "semantic_similarity").getD (.num 0)
  let t := get_evaluation_thresholds cfg
  (pyGeJ accuracy_score t.excellent).bind (fun ge =>
    if ge then
      .ok ⟨accuracy_score, semantic_similarity, "優秀", confidence, "completed"⟩
    else
      (pyGeJ accuracy_score t.good).bind (fun gg =>
        if gg then .ok ⟨accuracy_score, semantic_similarity, "良好", confidence, "completed"⟩
        else (pyGeJ accuracy_score t.fair).bind (fun gf =>
          if gf then
            .ok ⟨accuracy_score, semantic_similarity, "普通", confidence, "completed"⟩
          else
            .ok ⟨accuracy_score, semantic_similarity, "需要改進", confidence, "completed"⟩)))

/-- The threshold chain of _calculate_evaluation_metrics for a numeric
accuracy score. -/
def accuracy_level_chain (t : Thresholds) (score : ℚ) : String :=
  if t.excellent ≤ score then "優秀"
  else if t.good ≤ score then "良好"
  else if t.fair ≤ score then "普通"
  else "需要改進"

/-- Rank of an accuracy level, for stating monotonicity. -/
def levelRank (level : String) : ℕ :=
  if level = "優秀" then 3
  else if level = "良好" then 2
  else if level = "普通" then 1
  else 0

theorem calculate_metrics_num (cfg : EvalConfig) (c : JDict) (conf a : ℚ)
    (ha : dget c "accuracy_score" = some (.num a)) :
    calculate_evaluation_metrics cfg c conf =
      .ok ⟨.num a, (dget c "semantic_similarity").getD (.num 0),
        accuracy_level_chain (get_evaluation_thresholds cfg) a, conf, "completed"⟩ := by
  unfold calculate_evaluation_metrics accuracy_level_chain pyGeJ
  rw [ha]
  by_cases h1 : (get_evaluation_thresholds cfg).excellent ≤ a <;>
    by_cases h2 : (get_evaluation_thresholds cfg).good ≤ a <;>
    by_cases h3 : (get_evaluation_thresholds cfg).fair ≤ a <;>
      simp [Except.bind, h1, h2, h3]

theorem levelRank_chain (t : Thresholds) (s : ℚ) :
    levelRank (accuracy_level_chain t s) =
      if t.excellent ≤ s then 3
      else if t.good ≤ s then 2
      else if t.fair ≤ s then 1
      else 0 := by
  unfold accuracy_level_chain
  split_ifs <;> rfl

/-! ### EvaluationService.evaluate_single_file (evaluation.py 60-148) -/

structure TranscriptionDict where
  file_path : String
  file_name : String
  transcript : Option String
  confidence : ℚ
  success : Bool
  error : Option String

/-- Path(p).name: the component after the last slash. -/
def pathName (p : String) : String :=
  ((p.toList.reverse.takeWhile (fun c => c != '/')).reverse).asString

structure EvaluationResult where
  audio_file : String
  reference_text : String
  transcription : Option TranscriptionDict
  comparison : Option JDict
  evaluation_metrics : Option MetricsDict
  success : Bool
  error_message : Option String

/-- The placeholder transcription dict built by the except clause. -/
def placeholder_transcription (path msg : String) : TranscriptionDict :=
  ⟨path, pathName path, none, 0, false, some msg⟩

/-- The placeholder comparison dict built by the except clause. -/
def placeholder_comparison (msg : String) : JDict :=
  [("summary", .str "評估失敗"),
   ("accuracy_score", .num 0),
   ("semantic_similarity", .num 0),
   ("error_analysis", .obj [("substitutions", .num 0), ("deletions", .num 0),
      ("insertions", .num 0), ("total_errors", .num 0)]),
   ("key_differences", .arr []),
   ("suggestions", .arr [.str "檢查音頻檔案", .str "確認網路連線"]),
   ("reasoning", .str ("評估過程發生錯誤: " ++ msg)),
   ("success", .jbool false),
   ("error", .str msg)]

/-- The failed metrics dict built by the except clause. -/
def failed_metrics : MetricsDict :=
  ⟨.num 0, .num 0, "評估失敗", 0, "failed"⟩

/-- The body of the except (RuntimeError, ValueError) clause: keep any
already-assigned transcription/comparison, fill placeholders otherwise. -/
def except_handler (path ref : String) (tr : Option TranscriptionDict)
    (cmp : Option JDict) (e : PyError) : EvaluationResult :=
  { audio_file := path, reference_text := ref,
    transcription := some (tr.getD (placeholder_transcription path e.msg)),
    comparison := some (cmp.getD (placeholder_comparison e.msg)),
    evaluation_metrics := some failed_metrics,
    success := false, error_message := some e.msg }

/-- The services and configuration visible to one evaluation call. -/
structure AppEnv where
  stt : Option STTServiceModel
  llm : Option (Nat → LLMOutcome)
  loads : String → Option JValue
  cfg : EvalConfig

/-- EvaluationService.evaluate_single_file.  An exception not matched by
the except (RuntimeError, ValueError) clause (FileNotFoundError,
AttributeError, TypeError) propagates to the caller, modelled as .error.
evaluation_id, timestamp and processing_time are uuid/clock artifacts with
no claim content and are omitted from the record. -/
def evaluate_single_file (env : AppEnv) (audio_file_path reference_text : String) :
    Except PyError EvaluationResult :=
  match module_transcribe_audio env.stt audio_file_path with
  | .error e =>
    if e.catchableRV then
      .ok (except_handler audio_file_path reference_text none none e)
    else .error e
  | .ok (transcript, confidence) =>
    let tdict : TranscriptionDict :=
      ⟨audio_file_path, pathName audio_file_path, some transcript, confidence, true, none⟩
    match module_compare_text_accuracy env.llm env.loads transcript reference_text with
    | .error e =>
      if e.catchableRV then
        .ok (except_handler audio_file_path reference_text (some tdict) none e)
      else .error e
    | .ok comparison0 =>
      let comparison := dinsert comparison0 "success" (.jbool true)
      match calculate_evaluation_metrics env.cfg comparison confidence with
      | .error e =>
        if e.catchableRV then
          .ok (except_handler audio_file_path reference_text (some tdict) (some comparison) e)
        else .error e
      | .ok metrics =>
        .ok { audio_file := audio_file_path, reference_text := reference_text,
              transcription := some tdict, comparison := some comparison,
              evaluation_metrics := some metrics, success := true, error_message := none }

/-! ### Error taxonomy lemmas -/

theorem handle_transcription_error_kind (m : String) :
    (∃ m2, handle_transcription_error m = .valueError m2) ∨
    (∃ m2, handle_transcription_error m = .runtimeError m2) := by
  unfold handle_transcription_error
  split_ifs <;> simp

theorem client_transcribe_error_kind (env : SttEnv) (p : String) (e : PyError)
    (h : client_transcribe_audio env p = .error e) :
    e.catchableRV = true ∨ ∃ m, e = .fileNotFoundError m := by
  unfold client_transcribe_audio at h
  split_ifs at h with h1 h2 h3 h4
  · cases h; left; rfl
  · cases h; right; exact ⟨_, rfl⟩
  · cases h; left; rfl
  · cases h; left; rfl
  · cases hb : env.backend with
    | ok text =>
      simp only [hb] at h
      split_ifs at h with ht
      · cases h
        left
        rcases handle_transcription_error_kind
            "無法識別語音內容，檔案可能損壞或不包含語音" with ⟨m2, hm⟩ | ⟨m2, hm⟩ <;>
          rw [hm] <;> rfl
    | apiErr m =>
      simp only [hb] at h
      cases h; left; rfl
    | ioErr m =>
      simp only [hb] at h
      cases h
      left
      rcases handle_transcription_error_kind m with ⟨m2, hm⟩ | ⟨m2, hm⟩ <;> rw [hm] <;> rfl

theorem sttservice_transcribe_error_kind (env : SttEnv) (p : String) (e : PyError)
    (h : sttservice_transcribe_audio env p = .error e) :
    e.catchableRV = true ∨ ∃ m, e = .fileNotFoundError m := by
  unfold sttservice_transcribe_audio at h
  split_ifs at h with h1
  · cases h; left; rfl
  · cases hc : client_transcribe_audio env p with
    | ok r => rw [hc] at h; simp at h
    | error e0 =>
      rw [hc] at h
      have hk := client_transcribe_error_kind env p e0 hc
      cases e0 with
      | valueError m => cases h; left; rfl
      | runtimeError m => cases h; left; rfl
      | fileNotFoundError m => cases h; right; exact ⟨m, rfl⟩
      | attributeError m =>
        rcases hk with hk | ⟨m2, hk⟩
        · simp [PyError.catchableRV] at hk
        · cases hk
      | typeError m =>
        rcases hk with hk | ⟨m2, hk⟩
        · simp [PyError.catchableRV] at hk
        · cases hk

theorem module_transcribe_error_kind (svc : Option STTServiceModel) (p : String)
    (e : PyError) (h : module_transcribe_audio svc p = .error e) :
    e.catchableRV = true ∨ ∃ m, e = .fileNotFoundError m := by
  cases svc with
  | none =>
    simp only [module_transcribe_audio] at h
    cases h; left; rfl
  | some m => exact sttservice_transcribe_error_kind m.env p e h

theorem call_api_aux_error_runtime (api : Nat → LLMOutcome) (fuel rc : Nat) (e : PyError)
    (h : call_api_aux api fuel rc = .error e) : ∃ m, e = .runtimeError m := by
  induction fuel generalizing rc with
  | zero =>
    unfold call_api_aux at h
    cases h; exact ⟨_, rfl⟩
  | succ n ih =>
    unfold call_api_aux at h
    cases ha : api rc with
    | ok c => rw [ha] at h; simp at h
    | apiErr m =>
      rw [ha] at h
      by_cases hrc : rc < 2
      · rw [if_pos hrc] at h
        exact ih _ h
      · rw [if_neg hrc] at h
        cases h; exact ⟨_, rfl⟩

theorem clampScoreField_error_kind (d : JDict) (k : String) (e : PyError)
    (h : clampScoreField d k = .error e) :
    (∃ m, e = .typeError m) ∨ (∃ m, e = .valueError m) := by
  unfold clampScoreField at h
  cases hf : pyFloatOf ((dget d k).getD (.num 0)) with
  | ok q => rw [hf] at h; simp at h
  | typeErr => rw [hf] at h; cases h; exact Or.inl ⟨_, rfl⟩
  | valueErr => rw [hf] at h; cases h; exact Or.inr ⟨_, rfl⟩

theorem parse_obj_error_kind (j : JValue) (e : PyError)
    (h : parse_comparison_obj j = .error e) :
    (∃ m, e = .typeError m) ∨ (∃ m, e = .valueError m) ∨ (∃ m, e = .attributeError m) := by
  cases j with
  | obj fields =>
    simp only [parse_comparison_obj] at h
    cases hc : clampScoreField (fixErrorAnalysis (backfillRequired (canonDict fields)))
        "accuracy_score" with
    | ok d3 =>
      rw [hc] at h
      simp only [Except.bind] at h
      rcases clampScoreField_error_kind d3 "semantic_similarity" e h with hk | hk
      · exact Or.inl hk
      · exact Or.inr (Or.inl hk)
    | error e0 =>
      rw [hc] at h
      simp only [Except.bind] at h
      cases h
      rcases clampScoreField_error_kind _ _ _ hc with hk | hk
      · exact Or.inl hk
      · exact Or.inr (Or.inl hk)
  | null => simp only [parse_comparison_obj] at h; cases h; exact Or.inr (Or.inr ⟨_, rfl⟩)
  | jbool b => simp only [parse_comparison_obj] at h; cases h; exact Or.inr (Or.inr ⟨_, rfl⟩)
  | num q => simp only [parse_comparison_obj] at h; cases h; exact Or.inr (Or.inr ⟨_, rfl⟩)
  | str s => simp only [parse_comparison_obj] at h; cases h; exact Or.inr (Or.inr ⟨_, rfl⟩)
  | arr es => simp only [parse_comparison_obj] at h; cases h; exact Or.inr (Or.inr ⟨_, rfl⟩)

theorem parse_response_error_kind (loads : String → Option JValue) (rt : String)
    (e : PyError) (h : parse_comparison_response loads rt = .error e) :
    (∃ m, e = .runtimeError m) ∨ (∃ m, e = .valueError m) ∨ (∃ m, e = .attributeError m) := by
  unfold parse_comparison_response at h
  cases hl : loads (stripFences rt) with
  | none => simp only [hl] at h; cases h; exact Or.inl ⟨_, rfl⟩
  | some j =>
    simp only [hl] at h
    cases hp : parse_comparison_obj j with
    | ok d =>
      simp only [hp] at h
      exact absurd h (by simp)
    | error e0 =>
      rcases parse_obj_error_kind j e0 hp with ⟨m, hm⟩ | ⟨m, hm⟩ | ⟨m, hm⟩ <;> subst hm
      · simp only [hp] at h; cases h; exact Or.inl ⟨_, rfl⟩
      · simp only [hp] at h; cases h; exact Or.inr (Or.inl ⟨_, rfl⟩)
      · simp only [hp] at h; cases h; exact Or.inr (Or.inr ⟨_, rfl⟩)

theorem compare_error_kind (api : Nat → LLMOutcome) (loads : String → Option JValue)
    (t r : String) (e : PyError)
    (h : compare_text_accuracy api loads t r = .error e) :
    e.catchableRV = true ∨ ∃ m, e = .attributeError m := by
  unfold compare_text_accuracy at h
  split_ifs at h with h1 h2
  · cases h; left; rfl
  · cases h; left; rfl
  · cases hb : (call_openai_api api 0).bind
        (fun rt => parse_comparison_response loads rt) with
    | ok d => rw [hb] at h; simp at h
    | error e0 =>
      rw [hb] at h
      have he0 : (∃ m, e0 = .runtimeError m) ∨ (∃ m, e0 = .valueError m) ∨
          (∃ m, e0 = .attributeError m) := by
        cases hcall : call_openai_api api 0 with
        | ok rt0 =>
          rw [hcall] at hb
          simp only [Except.bind] at hb
          exact parse_response_error_kind loads rt0 e0 hb
        | error ec =>
          rw [hcall] at hb
          simp only [Except.bind] at hb
          cases hb
          exact Or.inl (call_api_aux_error_runtime api 3 0 _ hcall)
      rcases he0 with ⟨m, rfl⟩ | ⟨m, rfl⟩ | ⟨m, rfl⟩
      · cases h; left; rfl
      · cases h; left; rfl
      · cases h; right; exact ⟨m, rfl⟩

theorem module_compare_error_kind (llm : Option (Nat → LLMOutcome))
    (loads : String → Option JValue) (t r : String) (e : PyError)
    (h : module_compare_text_accuracy llm loads t r = .error e) :
    e.catchableRV = true ∨ ∃ m, e = .attributeError m := by
  cases llm with
  | none =>
    simp only [module_compare_text_accuracy] at h
    cases h; left; rfl
  | some api => exact compare_error_kind api loads t r e h

theorem compare_ok_parse (api : Nat → LLMOutcome) (loads : String → Option JValue)
    (t r : String) (d : JDict) (h : compare_text_accuracy api loads t r = .ok d) :
    ∃ rt, parse_comparison_response loads rt = .ok d := by
  unfold compare_text_accuracy at h
  split_ifs at h with h1 h2
  · cases hb : (call_openai_api api 0).bind
        (fun rt => parse_comparison_response loads rt) with
    | error e0 =>
      rw [hb] at h
      cases e0 <;> simp at h
    | ok d0 =>
      rw [hb] at h
      have hd : d0 = d := by simpa using h
      subst hd
      cases hcall : call_openai_api api 0 with
      | error ec => rw [hcall] at hb; simp [Except.bind] at hb
      | ok rt0 =>
        rw [hcall] at hb
        simp only [Except.bind] at hb
        exact ⟨rt0, hb⟩

theorem module_compare_ok_parse (llm : Option (Nat → LLMOutcome))
    (loads : String → Option JValue) (t r : String) (d : JDict)
    (h : module_compare_text_accuracy llm loads t r = .ok d) :
    ∃ rt, parse_comparison_response loads rt = .ok d := by
  cases llm with
  | none => simp [module_compare_text_accuracy] at h
  | some api => exact compare_ok_parse api loads t r d h

/-! ### Claim C1 -/

/-- Counterexample to C1 as stated: when the audio file does not exist,
evaluate_single_file propagates FileNotFoundError to its caller — the
except (RuntimeError, ValueError) clause does not match it — instead of
returning an assembled result. -/
theorem C1_counterexample :
    evaluate_single_file
      { stt := some ⟨⟨fun _ => false, fun _ => 0, SttOutcome.ok "hi"⟩,
          ⟨false, [], false, false⟩⟩,
        llm := some (fun _ => LLMOutcome.ok "x"),
        loads := fun _ => none,
        cfg := ⟨true, true, false, 60, 90⟩ }
      "missing.wav" "你好" =
    .error (.fileNotFoundError "音頻檔案不存在: missing.wav") := rfl

/-- C1 (amended): evaluate_single_file returns a fully assembled result —
transcription, comparison and metrics populated, error_message set
whenever success is false — and never propagates any RuntimeError or
ValueError (every invalid input, size violation, backend failure,
exhausted retry and json/float parse failure is captured in the result);
the only exceptions that can reach the caller are FileNotFoundError, for a
missing audio file, and AttributeError, for a comparison payload that is
valid JSON but not an object. -/
theorem evaluate_eq_stt_error (env : AppEnv) (path ref : String) (e : PyError)
    (h : module_transcribe_audio env.stt path = .error e) :
    evaluate_single_file env path ref =
      if e.catchableRV then .ok (except_handler path ref none none e)
      else .error e := by
  unfold evaluate_single_file
  simp only [h]

theorem evaluate_eq_cmp_error (env : AppEnv) (path ref transcript : String)
    (confidence : ℚ) (e : PyError)
    (hstt : module_transcribe_audio env.stt path = .ok (transcript, confidence))
    (hcmp : module_compare_text_accuracy env.llm env.loads transcript ref = .error e) :
    evaluate_single_file env path ref =
      if e.catchableRV then
        .ok (except_handler path ref
          (some ⟨path, pathName path, some transcript, confidence, true, none⟩) none e)
      else .error e := by
  unfold evaluate_single_file
  simp only [hstt]
  simp only [hcmp]

theorem evaluate_eq_ok (env : AppEnv) (path ref transcript : String) (confidence : ℚ)
    (d : JDict) (metrics : MetricsDict)
    (hstt : module_transcribe_audio env.stt path = .ok (transcript, confidence))
    (hcmp : module_compare_text_accuracy env.llm env.loads transcript ref = .ok d)
    (hmet : calculate_evaluation_metrics env.cfg (dinsert d "success" (.jbool true))
      confidence = .ok metrics) :
    evaluate_single_file env path ref =
      .ok { audio_file := path, reference_text := ref,
            transcription := some ⟨path, pathName path, some transcript,
              confidence, true, none⟩,
            comparison := some (dinsert d "success" (.jbool true)),
            evaluation_metrics := some metrics,
            success := true, error_message := none } := by
  unfold evaluate_single_file
  simp only [hstt]
  simp only [hcmp]
  simp only [hmet]

theorem C1_no_throw_amended (env : AppEnv) (path ref : String) :
    (∀ r, evaluate_single_file env path ref = .ok r →
      r.transcription.isSome = true ∧ r.comparison.isSome = true ∧
      r.evaluation_metrics.isSome = true ∧
      (r.success = false → r.error_message.isSome = true)) ∧
    (∀ e, evaluate_single_file env path ref = .error e →
      (∃ m, e = .fileNotFoundError m) ∨ (∃ m, e = .attributeError m)) := by
  cases hstt : module_transcribe_audio env.stt path with
  | error e0 =>
    have hev := evaluate_eq_stt_error env path ref e0 hstt
    by_cases hc : e0.catchableRV
    · rw [if_pos hc] at hev
      constructor
      · intro r hr
        rw [hev] at hr
        cases hr
        exact ⟨rfl, rfl, rfl, fun _ => rfl⟩
      · intro e he
        rw [hev] at he
        cases he
    · rw [if_neg hc] at hev
      constructor
      · intro r hr
        rw [hev] at hr
        cases hr
      · intro e he
        rw [hev] at he
        cases he
        rcases module_transcribe_error_kind env.stt path e0 hstt with hk | hk
        · exact absurd hk hc
        · exact Or.inl hk
  | ok tc =>
    obtain ⟨transcript, confidence⟩ := tc
    cases hcmp : module_compare_text_accuracy env.llm env.loads transcript ref with
    | error e0 =>
      have hev := evaluate_eq_cmp_error env path ref transcript confidence e0 hstt hcmp
      by_cases hc : e0.catchableRV
      · rw [if_pos hc] at hev
        constructor
        · intro r hr
          rw [hev] at hr
          cases hr
          exact ⟨rfl, rfl, rfl, fun _ => rfl⟩
        · intro e he
          rw [hev] at he
          cases he
      · rw [if_neg hc] at hev
        constructor
        · intro r hr
          rw [hev] at hr
          cases hr
        · intro e he
          rw [hev] at he
          cases he
          rcases module_compare_error_kind env.llm env.loads transcript ref e0 hcmp
            with hk | hk
          · exact absurd hk hc
          · exact Or.inr hk
    | ok d =>
      obtain ⟨rt0, hparse⟩ :=
        module_compare_ok_parse env.llm env.loads transcript ref d hcmp
      obtain ⟨⟨a, hacc, _, _⟩, _⟩ := parse_response_scores_num env.loads rt0 d hparse
      have hacc2 : dget (dinsert d "success" (.jbool true)) "accuracy_score" =
          some (.num a) := by
        rw [dget_dinsert_ne _ _ _ _ (by decide)]
        exact hacc
      have hmet := calculate_metrics_num env.cfg (dinsert d "success" (.jbool true))
        confidence a hacc2
      have hev := evaluate_eq_ok env path ref transcript confidence d _ hstt hcmp hmet
      constructor
      · intro r hr
        rw [hev] at hr
        cases hr
        refine ⟨rfl, rfl, rfl, ?_⟩
        intro hfalse
        simp at hfalse
      · intro e he
        rw [hev] at he
        cases he

/-- Witness for C1: a configuration whose comparison service failed to
initialize yields a fully assembled failure result (success=false,
error_message set). -/
theorem C1_no_throw_amended_witness :
    (({ audio_file := "a.wav", reference_text := "ref",
        transcription := some ⟨"a.wav", pathName "a.wav", some "哈囉", 1, true, none⟩,
        comparison := some (placeholder_comparison "文字比對分析服務不可用"),
        evaluation_metrics := some failed_metrics,
        success := false,
        error_message := some "文字比對分析服務不可用" } : EvaluationResult).success = false →
      (some "文字比對分析服務不可用" : Option String).isSome = true) →
    (some (placeholder_comparison "文字比對分析服務不可用") : Option JDict).isSome = true := by
  intro _
  exact ((C1_no_throw_amended
    { stt := some ⟨⟨fun _ => true, fun _ => 2000, SttOutcome.ok "哈囉"⟩,
        ⟨false, [], false, false⟩⟩,
      llm := none, loads := fun _ => none, cfg := ⟨true, true, false, 60, 90⟩ }
    "a.wav" "ref").1
    { audio_file := "a.wav", reference_text := "ref",
      transcription := some ⟨"a.wav", pathName "a.wav", some "哈囉", 1, true, none⟩,
      comparison := some (placeholder_comparison "文字比對分析服務不可用"),
      evaluation_metrics := some failed_metrics,
      success := false,
      error_message := some "文字比對分析服務不可用" } (by rfl)).2.1

/-! ### Claim C3 -/

/-- C3: the accuracy tier is chosen by inclusive ordered comparison from
the configured thresholds (excellent iff score ≥ high-accuracy threshold,
else good iff score ≥ max(75, min-similarity), else fair iff score ≥
min-similarity, else needs-improvement); with thresholds excellent=90 and
min-similarity=60 a score of exactly 90 is excellent, 89.9 good, 60 fair
and 59.9 needs-improvement; the tier is monotonic in the score; and the
chain is exactly what _calculate_evaluation_metrics computes on a numeric
accuracy score. -/
theorem C3_accuracy_tiering (cfg : EvalConfig) (score s1 s2 conf a : ℚ) (c : JDict) :
    (accuracy_level_chain (get_evaluation_thresholds cfg) score = "優秀" ↔
      cfg.high_accuracy_threshold ≤ score) ∧
    (accuracy_level_chain (get_evaluation_thresholds cfg) score = "良好" ↔
      (¬cfg.high_accuracy_threshold ≤ score ∧
        max 75 cfg.min_similarity_threshold ≤ score)) ∧
    (accuracy_level_chain (get_evaluation_thresholds cfg) score = "普通" ↔
      (¬cfg.high_accuracy_threshold ≤ score ∧
        ¬max 75 cfg.min_similarity_threshold ≤ score ∧
        cfg.min_similarity_threshold ≤ score)) ∧
    (accuracy_level_chain (get_evaluation_thresholds cfg) score = "需要改進" ↔
      (¬cfg.high_accuracy_threshold ≤ score ∧
        ¬max 75 cfg.min_similarity_threshold ≤ score ∧
        ¬cfg.min_similarity_threshold ≤ score)) ∧
    (accuracy_level_chain (get_evaluation_thresholds ⟨true, true, false, 60, 90⟩) 90
        = "優秀" ∧
      accuracy_level_chain (get_evaluation_thresholds ⟨true, true, false, 60, 90⟩) 89.9
        = "良好" ∧
      accuracy_level_chain (get_evaluation_thresholds ⟨true, true, false, 60, 90⟩) 60
        = "普通" ∧
      accuracy_level_chain (get_evaluation_thresholds ⟨true, true, false, 60, 90⟩) 59.9
        = "需要改進") ∧
    (s1 ≤ s2 →
      levelRank (accuracy_level_chain (get_evaluation_thresholds cfg) s1) ≤
        levelRank (accuracy_level_chain (get_evaluation_thresholds cfg) s2)) ∧
    (dget c "accuracy_score" = some (.num a) →
      ∃ m, calculate_evaluation_metrics cfg c conf = .ok m ∧
        m.accuracy_level = accuracy_level_chain (get_evaluation_thresholds cfg) a ∧
        m.processing_status = "completed") := by
  refine ⟨?_, ?_, ?_, ?_, ?_, ?_, ?_⟩
  · unfold accuracy_level_chain get_evaluation_thresholds
    split_ifs with h1 h2 h3 <;> simp_all
  · unfold accuracy_level_chain get_evaluation_thresholds
    split_ifs with h1 h2 h3 <;> simp_all
  · unfold accuracy_level_chain get_evaluation_thresholds
    split_ifs with h1 h2 h3 <;> simp_all
  · unfold accuracy_level_chain get_evaluation_thresholds
    split_ifs with h1 h2 h3 <;> simp_all
  · refine ⟨?_, ?_, ?_, ?_⟩ <;>
      · unfold accuracy_level_chain get_evaluation_thresholds
        norm_num [max_def]
  · intro h12
    rw [levelRank_chain, levelRank_chain]
    split_ifs <;> first | omega | (exfalso; linarith)
  · intro ha
    exact ⟨_, calculate_metrics_num cfg c conf a ha, rfl, rfl⟩

/-- Witness for C3: with default thresholds the tier at 50 is no higher
than the tier at 95. -/
theorem C3_accuracy_tiering_witness :
    levelRank (accuracy_level_chain (get_evaluation_thresholds
      ⟨true, true, false, 60, 90⟩) 50) ≤
    levelRank (accuracy_level_chain (get_evaluation_thresholds
      ⟨true, true, false, 60, 90⟩) 95) :=
  (C3_accuracy_tiering ⟨true, true, false, 60, 90⟩ 0 50 95 1 0 []).2.2.2.2.2.1
    (by norm_num)

/-! ### Claim C5 -/

/-- Counterexample to C5 as stated: for a missing audio file the
speech-to-text step fails, yet evaluate_single_file does not return the
success=false placeholder result — it propagates FileNotFoundError. -/
theorem C5_counterexample :
    module_transcribe_audio
      (some ⟨⟨fun _ => false, fun _ => 0, SttOutcome.ok "hi"⟩,
        ⟨false, [], false, false⟩⟩) "gone.wav" =
      .error (.fileNotFoundError "音頻檔案不存在: gone.wav") ∧
    evaluate_single_file
      { stt := some ⟨⟨fun _ => false, fun _ => 0, SttOutcome.ok "hi"⟩,
          ⟨false, [], false, false⟩⟩,
        llm := some (fun _ => LLMOutcome.ok "x"),
        loads := fun _ => none,
        cfg := ⟨true, true, false, 60, 90⟩ }
      "gone.wav" "你好" =
    .error (.fileNotFoundError "音頻檔案不存在: gone.wav") :=
  ⟨rfl, rfl⟩

/-- C5 (amended): whenever the STT step fails with a RuntimeError or
ValueError — every STT failure mode except the missing-file
FileNotFoundError — evaluate_single_file returns success=false with the
placeholder transcription (null transcript, zero confidence, error field
set) and the generic-failure placeholder comparison (zero scores,
non-empty suggestions, the error message embedded in reasoning), and the
comparison backend is never consulted: the result is identical for every
llm oracle and json decoder. -/
theorem C5_stt_failure_placeholders_amended (env : AppEnv) (path ref : String)
    (e : PyError) (hstt : module_transcribe_audio env.stt path = .error e)
    (hc : e.catchableRV = true) :
    evaluate_single_file env path ref =
      .ok { audio_file := path, reference_text := ref,
            transcription := some (placeholder_transcription path e.msg),
            comparison := some (placeholder_comparison e.msg),
            evaluation_metrics := some failed_metrics,
            success := false, error_message := some e.msg } ∧
    dget (placeholder_comparison e.msg) "accuracy_score" = some (.num 0) ∧
    dget (placeholder_comparison e.msg) "semantic_similarity" = some (.num 0) ∧
    dget (placeholder_comparison e.msg) "suggestions" =
      some (.arr [.str "檢查音頻檔案", .str "確認網路連線"]) ∧
    dget (placeholder_comparison e.msg) "reasoning" =
      some (.str ("評估過程發生錯誤: " ++ e.msg)) ∧
    (∀ (llm2 : Option (Nat → LLMOutcome)) (loads2 : String → Option JValue),
      evaluate_single_file { env with llm := llm2, loads := loads2 } path ref =
        evaluate_single_file env path ref) := by
  have hmain : evaluate_single_file env path ref =
      .ok (except_handler path ref none none e) := by
    unfold evaluate_single_file
    rw [hstt]
    simp [hc]
  refine ⟨?_, rfl, rfl, rfl, rfl, ?_⟩
  · rw [hmain]
    rfl
  · intro llm2 loads2
    have hmain2 : evaluate_single_file { env with llm := llm2, loads := loads2 } path ref =
        .ok (except_handler path ref none none e) := by
      unfold evaluate_single_file
      rw [show ({ env with llm := llm2, loads := loads2 } : AppEnv).stt = env.stt from rfl,
        hstt]
      simp [hc]
    rw [hmain, hmain2]

/-- Witness for C5: with an uninitialized STT service the placeholder
result is returned. -/
theorem C5_stt_failure_placeholders_amended_witness :
    evaluate_single_file
      { stt := none, llm := none, loads := fun _ => none,
        cfg := ⟨true, true, false, 60, 90⟩ } "a.wav" "ref" =
      .ok { audio_file := "a.wav", reference_text := "ref",
            transcription := some (placeholder_transcription "a.wav" "STT 服務不可用"),
            comparison := some (placeholder_comparison "STT 服務不可用"),
            evaluation_metrics := some failed_metrics,
            success := false, error_message := some "STT 服務不可用" } :=
  (C5_stt_failure_placeholders_amended
    { stt := none, llm := none, loads := fun _ => none,
      cfg := ⟨true, true, false, 60, 90⟩ } "a.wav" "ref"
    (.runtimeError "STT 服務不可用") rfl rfl).1

/-! ### TextProcessor.normalize_text (llm.py lines 20-43) -/

/-- re.sub of one-or-more whitespace with a single blank: collapse every
maximal whitespace run. -/
def collapseWs : List Char → List Char
  | [] => []
  | [c] => if pyWsChar c then [' '] else [c]
  | c1 :: c2 :: rest =>
    if pyWsChar c1 then
      if pyWsChar c2 then collapseWs (c2 :: rest)
      else ' ' :: collapseWs (c2 :: rest)
    else c1 :: collapseWs (c2 :: rest)

/-- The chained str.replace calls mapping full-width punctuation to ASCII
(each replaces one character by one character). -/
def fwMap (c : Char) : Char :=
  if c = '，' then ','
  else if c = '。' then '.'
  else if c = '？' then '?'
  else if c = '！' then '!'
  else if c = '：' then ':'
  else if c = '；' then ';'
  else if c = '「' then '"'
  else if c = '」' then '"'
  else if c = '『' then Char.ofNat 39
  else if c = '』' then Char.ofNat 39
  else c

/-- Is c one of the ten full-width characters the replace chain rewrites? -/
def isFwSrc (c : Char) : Bool :=
  c == '，' || c == '。' || c == '？' || c == '！' || c == '：' ||
  c == '；' || c == '「' || c == '」' || c == '『' || c == '』'

/-- The punctuation class removed when punctuation_ignore is on. -/
def punctChar (c : Char) : Bool :=
  c == '.' || c == ',' || c == '!' || c == '?' || c == ';' || c == ':' ||
  c == '(' || c == ')' || c == '"' || c == Char.ofNat 39 || c == '-'

/-- The normalization pipeline on a character list, in source order: strip,
optional whitespace collapse and full-width replacement, optional
punctuation removal, optional lower-casing, final strip. -/
def normList (cfg : EvalConfig) (l : List Char) : List Char :=
  let t0 := stripEnds l
  let t1 := if cfg.text_normalization then (collapseWs t0).map fwMap else t0
  let t2 := if cfg.punctuation_ignore then t1.filter (fun c => !punctChar c) else t1
  let t3 := if cfg.case_sensitive then t2 else t2.map pyLowerChar
  stripEnds t3

/-- TextProcessor.normalize_text; the falsy empty string short-circuits. -/
def normalize_text (cfg : EvalConfig) (text : String) : String :=
  if text = "" then "" else (normList cfg text.toList).asString

/-! ### Character-level lemmas -/

theorem char_toNat_inj {a b : Char} (h : a.toNat = b.toNat) : a = b :=
  Char.ext (UInt32.ext h)

theorem toNat_ofNat_le (n : ℕ) (h : n ≤ 122) : (Char.ofNat n).toNat = n := by
  have hv : n.isValidChar := Or.inl (by omega)
  rw [Char.ofNat, dif_pos hv]
  rfl

theorem pyLowerChar_toNat (c : Char) :
    (pyLowerChar c).toNat =
      if 65 ≤ c.toNat ∧ c.toNat ≤ 90 then c.toNat + 32 else c.toNat := by
  unfold pyLowerChar
  by_cases h : 65 ≤ c.toNat ∧ c.toNat ≤ 90
  · rw [if_pos h, if_pos h, toNat_ofNat_le _ (by omega)]
  · rw [if_neg h, if_neg h]

theorem beq_char_false_of_toNat_ne {x b : Char} (h : x.toNat ≠ b.toNat) :
    (x == b) = false := by
  apply beq_eq_false_iff_ne.mpr
  intro he
  subst he
  exact h rfl

theorem beq_char_false_of_gt {x b : Char} (h : b.toNat < x.toNat) : (x == b) = false :=
  beq_char_false_of_toNat_ne (by omega)

theorem beq_char_false_of_lt {x b : Char} (h : x.toNat < b.toNat) : (x == b) = false :=
  beq_char_false_of_toNat_ne (by omega)

theorem pyWsChar_eq_false_of_ge (x : Char) (h : 33 ≤ x.toNat) : pyWsChar x = false := by
  unfold pyWsChar
  rw [beq_char_false_of_gt (lt_of_lt_of_le (by decide) h),
    beq_char_false_of_gt (lt_of_lt_of_le (by decide) h),
    beq_char_false_of_gt (lt_of_lt_of_le (by decide) h),
    beq_char_false_of_gt (lt_of_lt_of_le (by decide) h),
    beq_char_false_of_gt (lt_of_lt_of_le (by decide) h),
    beq_char_false_of_gt (lt_of_lt_of_le (by decide) h)]
  rfl

theorem punctChar_eq_false_of_ge (x : Char) (h : 64 ≤ x.toNat) : punctChar x = false := by
  unfold punctChar
  rw [beq_char_false_of_gt (lt_of_lt_of_le (by decide) h),
    beq_char_false_of_gt (lt_of_lt_of_le (by decide) h),
    beq_char_false_of_gt (lt_of_lt_of_le (by decide) h),
    beq_char_false_of_gt (lt_of_lt_of_le (by decide) h),
    beq_char_false_of_gt (lt_of_lt_of_le (by decide) h),
    beq_char_false_of_gt (lt_of_lt_of_le (by decide) h),
    beq_char_false_of_gt (lt_of_lt_of_le (by decide) h),
    beq_char_false_of_gt (lt_of_lt_of_le (by decide) h),
    beq_char_false_of_gt (lt_of_lt_of_le (by decide) h),
    beq_char_false_of_gt (lt_of_lt_of_le (by decide) h),
    beq_char_false_of_gt (lt_of_lt_of_le (by decide) h)]
  rfl

theorem isFwSrc_eq_false_of_le (x : Char) (h : x.toNat ≤ 122) : isFwSrc x = false := by
  unfold isFwSrc
  rw [beq_char_false_of_lt (lt_of_le_of_lt h (by decide)),
    beq_char_false_of_lt (lt_of_le_of_lt h (by decide)),
    beq_char_false_of_lt (lt_of_le_of_lt h (by decide)),
    beq_char_false_of_lt (lt_of_le_of_lt h (by decide)),
    beq_char_false_of_lt (lt_of_le_of_lt h (by decide)),
    beq_char_false_of_lt (lt_of_le_of_lt h (by decide)),
    beq_char_false_of_lt (lt_of_le_of_lt h (by decide)),
    beq_char_false_of_lt (lt_of_le_of_lt h (by decide)),
    beq_char_false_of_lt (lt_of_le_of_lt h (by decide)),
    beq_char_false_of_lt (lt_of_le_of_lt h (by decide))]
  rfl

theorem pyWsChar_toNat_le (c : Char) (h : pyWsChar c = true) : c.toNat ≤ 32 := by
  simp only [pyWsChar, Bool.or_eq_true, beq_iff_eq] at h
  rcases h with ((((h | h) | h) | h) | h) | h <;> subst h <;> decide

theorem pyLowerChar_ws (c : Char) : pyWsChar (pyLowerChar c) = pyWsChar c := by
  by_cases h : 65 ≤ c.toNat ∧ c.toNat ≤ 90
  · have h1 : pyWsChar (pyLowerChar c) = false := by
      apply pyWsChar_eq_false_of_ge
      rw [pyLowerChar_toNat, if_pos h]
      omega
    have h2 : pyWsChar c = false := pyWsChar_eq_false_of_ge c (by omega)
    rw [h1, h2]
  · unfold pyLowerChar
    rw [if_neg h]

theorem pyLowerChar_punct (c : Char) : punctChar (pyLowerChar c) = punctChar c := by
  by_cases h : 65 ≤ c.toNat ∧ c.toNat ≤ 90
  · have h1 : punctChar (pyLowerChar c) = false := by
      apply punctChar_eq_false_of_ge
      rw [pyLowerChar_toNat, if_pos h]
      omega
    have h2 : punctChar c = false := punctChar_eq_false_of_ge c (by omega)
    rw [h1, h2]
  · unfold pyLowerChar
    rw [if_neg h]

theorem pyLowerChar_fw (c : Char) : isFwSrc (pyLowerChar c) = isFwSrc c := by
  by_cases h : 65 ≤ c.toNat ∧ c.toNat ≤ 90
  · have h1 : isFwSrc (pyLowerChar c) = false := by
      apply isFwSrc_eq_false_of_le
      rw [pyLowerChar_toNat, if_pos h]
      omega
    have h2 : isFwSrc c = false := isFwSrc_eq_false_of_le c (by omega)
    rw [h1, h2]
  · unfold pyLowerChar
    rw [if_neg h]

theorem pyLowerChar_idem (c : Char) : pyLowerChar (pyLowerChar c) = pyLowerChar c := by
  by_cases h : 65 ≤ c.toNat ∧ c.toNat ≤ 90
  · have ht : (pyLowerChar c).toNat = c.toNat + 32 := by
      rw [pyLowerChar_toNat, if_pos h]
    nth_rewrite 1 [pyLowerChar]
    rw [if_neg (by omega)]
  · have hid : pyLowerChar c = c := by
      unfold pyLowerChar
      rw [if_neg h]
    rw [hid, hid]

theorem pyLowerChar_of_ws (c : Char) (h : pyWsChar c = true) : pyLowerChar c = c := by
  unfold pyLowerChar
  rw [if_neg (by have := pyWsChar_toNat_le c h; omega)]

theorem fwMap_no_src (c : Char) : isFwSrc (fwMap c) = false := by
  unfold fwMap
  split_ifs with h1 h2 h3 h4 h5 h6 h7 h8 h9 h10
  · decide
  · decide
  · decide
  · decide
  · decide
  · decide
  · decide
  · decide
  · decide
  · decide
  · unfold isFwSrc
    rw [beq_eq_false_iff_ne.mpr h1, beq_eq_false_iff_ne.mpr h2,
      beq_eq_false_iff_ne.mpr h3, beq_eq_false_iff_ne.mpr h4,
      beq_eq_false_iff_ne.mpr h5, beq_eq_false_iff_ne.mpr h6,
      beq_eq_false_iff_ne.mpr h7, beq_eq_false_iff_ne.mpr h8,
      beq_eq_false_iff_ne.mpr h9, beq_eq_false_iff_ne.mpr h10]
    rfl

theorem fwMap_eq_self_of_not_src (c : Char) (h : isFwSrc c = false) : fwMap c = c := by
  unfold fwMap
  split_ifs with h1 h2 h3 h4 h5 h6 h7 h8 h9 h10
  · subst h1; exact absurd h (by decide)
  · subst h2; exact absurd h (by decide)
  · subst h3; exact absurd h (by decide)
  · subst h4; exact absurd h (by decide)
  · subst h5; exact absurd h (by decide)
  · subst h6; exact absurd h (by decide)
  · subst h7; exact absurd h (by decide)
  · subst h8; exact absurd h (by decide)
  · subst h9; exact absurd h (by decide)
  · subst h10; exact absurd h (by decide)
  · rfl

theorem fwMap_ws (c : Char) : pyWsChar (fwMap c) = pyWsChar c := by
  unfold fwMap
  split_ifs with h1 h2 h3 h4 h5 h6 h7 h8 h9 h10
  · subst h1; decide
  · subst h2; decide
  · subst h3; decide
  · subst h4; decide
  · subst h5; decide
  · subst h6; decide
  · subst h7; decide
  · subst h8; decide
  · subst h9; decide
  · subst h10; decide
  · rfl

theorem fwMap_of_ws (c : Char) (h : pyWsChar c = true) : fwMap c = c :=
  fwMap_eq_self_of_not_src c
    (isFwSrc_eq_false_of_le c (by have := pyWsChar_toNat_le c h; omega))

/-! ### Whitespace normal form -/

/-- Every whitespace character in the list is a plain blank. -/
def WsIsBlank (l : List Char) : Prop := ∀ c ∈ l, pyWsChar c = true → c = ' '

/-- No two adjacent whitespace characters. -/
def NoTwoWs (l : List Char) : Prop :=
  l.Chain' (fun a b => ¬(pyWsChar a = true ∧ pyWsChar b = true))

def WsOk (l : List Char) : Prop := WsIsBlank l ∧ NoTwoWs l

theorem collapseWs_cons (rest : List Char) :
    ∀ c : Char, ∃ t, collapseWs (c :: rest) = (if pyWsChar c then ' ' else c) :: t := by
  induction rest with
  | nil =>
    intro c
    by_cases h : pyWsChar c
    · exact ⟨[], by simp [collapseWs, h]⟩
    · exact ⟨[], by simp [collapseWs, h]⟩
  | cons c2 rest2 ih =>
    intro c
    by_cases h1 : pyWsChar c
    · by_cases h2 : pyWsChar c2
      · obtain ⟨t, ht⟩ := ih c2
        refine ⟨t, ?_⟩
        rw [show collapseWs (c :: c2 :: rest2) = collapseWs (c2 :: rest2) from by
          simp [collapseWs, h1, h2]]
        rw [ht]
        simp [h1, h2]
      · exact ⟨collapseWs (c2 :: rest2), by simp [collapseWs, h1, h2]⟩
    · exact ⟨collapseWs (c2 :: rest2), by simp [collapseWs, h1]⟩

theorem mem_collapseWs (l : List Char) : ∀ x ∈ collapseWs l, x = ' ' ∨ x ∈ l := by
  induction l with
  | nil => simp [collapseWs]
  | cons c rest ih =>
    cases rest with
    | nil =>
      intro x hx
      by_cases h : pyWsChar c
      · simp [collapseWs, h] at hx
        exact Or.inl hx
      · simp [collapseWs, h] at hx
        exact Or.inr (by simp [hx])
    | cons c2 rest2 =>
      intro x hx
      by_cases h1 : pyWsChar c
      · by_cases h2 : pyWsChar c2
        · rw [show collapseWs (c :: c2 :: rest2) = collapseWs (c2 :: rest2) from by
            simp [collapseWs, h1, h2]] at hx
          rcases ih x hx with h | h
          · exact Or.inl h
          · exact Or.inr (List.mem_cons_of_mem _ h)
        · rw [show collapseWs (c :: c2 :: rest2) = ' ' :: collapseWs (c2 :: rest2) from by
            simp [collapseWs, h1, h2]] at hx
          rcases List.mem_cons.mp hx with rfl | hx2
          · exact Or.inl rfl
          · rcases ih x hx2 with h | h
            · exact Or.inl h
            · exact Or.inr (List.mem_cons_of_mem _ h)
      · rw [show collapseWs (c :: c2 :: rest2) = c :: collapseWs (c2 :: rest2) from by
          simp [collapseWs, h1]] at hx
        rcases List.mem_cons.mp hx with rfl | hx2
        · exact Or.inr (by simp)
        · rcases ih x hx2 with h | h
          · exact Or.inl h
          · exact Or.inr (List.mem_cons_of_mem _ h)

theorem wsOk_collapseWs (l : List Char) : WsOk (collapseWs l) := by
  induction l with
  | nil =>
    exact ⟨fun c hc => by simp [collapseWs] at hc, by simp [collapseWs, NoTwoWs]⟩
  | cons c rest ih =>
    cases rest with
    | nil =>
      by_cases h : pyWsChar c
      · refine ⟨?_, ?_⟩
        · intro x hx _
          simp [collapseWs, h] at hx
          exact hx
        · simp [collapseWs, h, NoTwoWs]
      · refine ⟨?_, ?_⟩
        · intro x hx hw
          simp [collapseWs, h] at hx
          subst hx
          exact absurd hw h
        · simp [collapseWs, h, NoTwoWs]
    | cons c2 rest2 =>
      obtain ⟨hB, hC⟩ := ih
      by_cases h1 : pyWsChar c
      · by_cases h2 : pyWsChar c2
        · rw [show collapseWs (c :: c2 :: rest2) = collapseWs (c2 :: rest2) from by
            simp [collapseWs, h1, h2]]
          exact ⟨hB, hC⟩
        · rw [show collapseWs (c :: c2 :: rest2) = ' ' :: collapseWs (c2 :: rest2) from by
            simp [collapseWs, h1, h2]]
          refine ⟨?_, ?_⟩
          · intro x hx hw
            rcases List.mem_cons.mp hx with rfl | hx2
            · rfl
            · exact hB x hx2 hw
          · unfold NoTwoWs
            rw [List.chain'_cons']
            refine ⟨?_, hC⟩
            intro y hy
            obtain ⟨t, ht⟩ := collapseWs_cons rest2 c2
            rw [ht] at hy
            simp only [List.head?_cons, Option.mem_def, Option.some.injEq] at hy
            subst hy
            rw [if_neg h2]
            intro hab
            exact h2 hab.2
      · rw [show collapseWs (c :: c2 :: rest2) = c :: collapseWs (c2 :: rest2) from by
          simp [collapseWs, h1]]
        refine ⟨?_, ?_⟩
        · intro x hx hw
          rcases List.mem_cons.mp hx with rfl | hx2
          · exact absurd hw h1
          · exact hB x hx2 hw
        · unfold NoTwoWs
          rw [List.chain'_cons']
          refine ⟨?_, hC⟩
          intro y _
          intro hab
          exact h1 hab.1

theorem collapseWs_eq_self (l : List Char) (h : WsOk l) : collapseWs l = l := by
  induction l with
  | nil => rfl
  | cons c rest ih =>
    cases rest with
    | nil =>
      by_cases hw : pyWsChar c
      · have hc : c = ' ' := h.1 c (by simp) hw
        simp [collapseWs, hw, hc]
      · simp [collapseWs, hw]
    | cons c2 rest2 =>
      have htail : WsOk (c2 :: rest2) :=
        ⟨fun x hx hw => h.1 x (List.mem_cons_of_mem _ hx) hw, h.2.tail⟩
      by_cases h1 : pyWsChar c
      · have hc2 : ¬pyWsChar c2 = true := by
          intro hw2
          exact (List.chain'_cons.mp h.2).1 ⟨h1, hw2⟩
        have hc : c = ' ' := h.1 c (by simp) h1
        rw [show collapseWs (c :: c2 :: rest2) = ' ' :: collapseWs (c2 :: rest2) from by
          simp [collapseWs, h1, hc2]]
        rw [ih htail, hc]
      · rw [show collapseWs (c :: c2 :: rest2) = c :: collapseWs (c2 :: rest2) from by
          simp [collapseWs, h1]]
        rw [ih htail]

theorem wsOk_map (f : Char → Char) (hws : ∀ c, pyWsChar (f c) = pyWsChar c)
    (hid : ∀ c, pyWsChar c = true → f c = c) (l : List Char) (h : WsOk l) :
    WsOk (l.map f) := by
  constructor
  · intro x hx hw
    obtain ⟨c, hc, rfl⟩ := List.mem_map.mp hx
    have hwc : pyWsChar c = true := by rw [← hws c]; exact hw
    rw [hid c hwc]
    exact h.1 c hc hwc
  · unfold NoTwoWs
    rw [List.chain'_map]
    exact h.2.imp (fun a b hr hab => hr ⟨by rw [← hws a]; exact hab.1,
      by rw [← hws b]; exact hab.2⟩)

theorem stripEnds_sublist (l : List Char) : List.Sublist (stripEnds l) l :=
  (( List.rdropWhile_prefix _ _).sublist).trans ((List.dropWhile_suffix _).sublist)

theorem wsOk_stripEnds (l : List Char) (h : WsOk l) : WsOk (stripEnds l) := by
  constructor
  · intro x hx hw
    exact h.1 x ((stripEnds_sublist l).subset hx) hw
  · have h1 : NoTwoWs (List.dropWhile pyWsChar l) :=
      h.2.suffix (List.dropWhile_suffix _)
    exact List.Chain'.prefix h1 ( List.rdropWhile_prefix _ _)

theorem dropWhile_stripEnds (l : List Char) :
    List.dropWhile pyWsChar (stripEnds l) = stripEnds l := by
  unfold stripEnds
  rcases heq : List.rdropWhile pyWsChar (List.dropWhile pyWsChar l) with _ | ⟨c, t⟩
  · rfl
  · have hpre := List.rdropWhile_prefix pyWsChar (List.dropWhile pyWsChar l)
    rw [heq] at hpre
    have hne : List.dropWhile pyWsChar l ≠ [] := by
      intro h0
      rw [h0] at heq
      simp [List.rdropWhile] at heq
    have hhead : (c :: t).head (by simp) = (List.dropWhile pyWsChar l).head hne :=
      hpre.head (by simp)
    have hp : pyWsChar c = false := by
      have := List.head_dropWhile_not pyWsChar l hne
      rw [← hhead] at this
      simpa using this
    simp [List.dropWhile_cons, hp]

theorem stripEnds_idem (l : List Char) : stripEnds (stripEnds l) = stripEnds l := by
  have h1 : stripEnds (stripEnds l) =
      List.rdropWhile pyWsChar (List.dropWhile pyWsChar (stripEnds l)) := rfl
  rw [h1, dropWhile_stripEnds]
  show List.rdropWhile pyWsChar
    (List.rdropWhile pyWsChar (List.dropWhile pyWsChar l)) = _
  rw [List.rdropWhile_idempotent]
  rfl

theorem map_id_of_forall {f : Char → Char} {l : List Char}
    (h : ∀ c ∈ l, f c = c) : l.map f = l := by
  induction l with
  | nil => rfl
  | cons c rest ih =>
    simp only [List.map_cons, h c (by simp)]
    rw [ih (fun x hx => h x (List.mem_cons_of_mem _ hx))]

/-! ### Normal form of normalize_text -/

def NoPunct (l : List Char) : Prop := ∀ c ∈ l, punctChar c = false

def NoFw (l : List Char) : Prop := ∀ c ∈ l, isFwSrc c = false

def Lowered (l : List Char) : Prop := ∀ c ∈ l, pyLowerChar c = c

/-- The fixed points of each enabled pipeline stage. -/
def NormalForm (cfg : EvalConfig) (l : List Char) : Prop :=
  stripEnds l = l ∧
  (cfg.text_normalization = true → collapseWs l = l ∧ NoFw l) ∧
  (cfg.punctuation_ignore = true → NoPunct l) ∧
  (cfg.case_sensitive = false → Lowered l)

theorem normList_eq_of_NF (cfg : EvalConfig) (l : List Char) (h : NormalForm cfg l) :
    normList cfg l = l := by
  obtain ⟨hstrip, htn, hpi, hcs⟩ := h
  simp only [normList]
  rw [hstrip]
  have e1 : (if cfg.text_normalization then (collapseWs l).map fwMap else l) = l := by
    by_cases h1 : cfg.text_normalization
    · rw [if_pos h1, (htn h1).1,
        map_id_of_forall (fun c hc => fwMap_eq_self_of_not_src c ((htn h1).2 c hc))]
    · rw [if_neg h1]
  rw [e1]
  have e2 : (if cfg.punctuation_ignore then l.filter (fun c => !punctChar c) else l)
      = l := by
    by_cases h2 : cfg.punctuation_ignore
    · rw [if_pos h2, List.filter_eq_self.mpr (fun c hc => by rw [hpi h2 c hc]; rfl)]
    · rw [if_neg h2]
  rw [e2]
  have e3 : (if cfg.case_sensitive then l else l.map pyLowerChar) = l := by
    by_cases h3 : cfg.case_sensitive
    · rw [if_pos h3]
    · rw [if_neg h3, map_id_of_forall (hcs (by revert h3; cases cfg.case_sensitive <;> simp))]
  rw [e3]
  exact hstrip

theorem stripEnds_normList (cfg : EvalConfig) (l : List Char) :
    stripEnds (normList cfg l) = normList cfg l := by
  unfold normList
  exact stripEnds_idem _

theorem noPunct_normList (cfg : EvalConfig) (l : List Char)
    (hpi : cfg.punctuation_ignore = true) : NoPunct (normList cfg l) := by
  intro c hc
  simp only [normList] at hc
  rw [if_pos hpi] at hc
  have hc2 := (stripEnds_sublist _).subset hc
  by_cases h3 : cfg.case_sensitive
  · rw [if_pos h3] at hc2
    simpa using List.of_mem_filter hc2
  · rw [if_neg h3] at hc2
    obtain ⟨c0, hc0, rfl⟩ := List.mem_map.mp hc2
    rw [pyLowerChar_punct]
    simpa using List.of_mem_filter hc0

theorem noFw_normList (cfg : EvalConfig) (l : List Char)
    (htn : cfg.text_normalization = true) : NoFw (normList cfg l) := by
  intro c hc
  simp only [normList] at hc
  rw [if_pos htn] at hc
  have step : ∀ x ∈ (if cfg.punctuation_ignore then
      ((collapseWs (stripEnds l)).map fwMap).filter (fun c => !punctChar c)
      else (collapseWs (stripEnds l)).map fwMap), isFwSrc x = false := by
    intro x hx
    have hx2 : x ∈ (collapseWs (stripEnds l)).map fwMap := by
      by_cases h2 : cfg.punctuation_ignore
      · rw [if_pos h2] at hx
        exact List.mem_of_mem_filter hx
      · rw [if_neg h2] at hx
        exact hx
    obtain ⟨c0, _, rfl⟩ := List.mem_map.mp hx2
    exact fwMap_no_src c0
  have hc2 := (stripEnds_sublist _).subset hc
  by_cases h3 : cfg.case_sensitive
  · rw [if_pos h3] at hc2
    exact step c hc2
  · rw [if_neg h3] at hc2
    obtain ⟨c0, hc0, rfl⟩ := List.mem_map.mp hc2
    rw [pyLowerChar_fw]
    exact step c0 hc0

theorem lowered_normList (cfg : EvalConfig) (l : List Char)
    (hcs : cfg.case_sensitive = false) : Lowered (normList cfg l) := by
  intro c hc
  simp only [normList] at hc
  rw [if_neg (show ¬(cfg.case_sensitive = true) by rw [hcs]; simp)] at hc
  have hc2 := (stripEnds_sublist _).subset hc
  obtain ⟨c0, _, rfl⟩ := List.mem_map.mp hc2
  exact pyLowerChar_idem c0

theorem wsOk_normList (cfg : EvalConfig) (l : List Char)
    (htn : cfg.text_normalization = true)
    (hok : cfg.punctuation_ignore = true → NoPunct l ∧ NoFw l) :
    WsOk (normList cfg l) := by
  simp only [normList]
  rw [if_pos htn]
  have hws1 : WsOk ((collapseWs (stripEnds l)).map fwMap) :=
    wsOk_map fwMap fwMap_ws fwMap_of_ws _ (wsOk_collapseWs _)
  have ht2 : (if cfg.punctuation_ignore then
      ((collapseWs (stripEnds l)).map fwMap).filter (fun c => !punctChar c)
      else (collapseWs (stripEnds l)).map fwMap)
      = (collapseWs (stripEnds l)).map fwMap := by
    by_cases h2 : cfg.punctuation_ignore
    · rw [if_pos h2]
      apply List.filter_eq_self.mpr
      intro c hc
      obtain ⟨c0, hc0, rfl⟩ := List.mem_map.mp hc
      rcases mem_collapseWs _ c0 hc0 with rfl | hc0l
      · rw [fwMap_of_ws ' ' (by decide)]
        decide
      · have hnf : isFwSrc c0 = false :=
          (hok h2).2 c0 ((stripEnds_sublist l).subset hc0l)
        rw [fwMap_eq_self_of_not_src c0 hnf]
        have hp : punctChar c0 = false :=
          (hok h2).1 c0 ((stripEnds_sublist l).subset hc0l)
        rw [hp]
        rfl
    · rw [if_neg h2]
  rw [ht2]
  by_cases h3 : cfg.case_sensitive
  · rw [if_pos h3]
    exact wsOk_stripEnds _ hws1
  · rw [if_neg h3]
    exact wsOk_stripEnds _
      (wsOk_map pyLowerChar pyLowerChar_ws pyLowerChar_of_ws _ hws1)

theorem NF_of_normList (cfg : EvalConfig) (l : List Char)
    (hok : cfg.text_normalization = true → cfg.punctuation_ignore = true →
      NoPunct l ∧ NoFw l) :
    NormalForm cfg (normList cfg l) := by
  refine ⟨stripEnds_normList cfg l, ?_, ?_, ?_⟩
  · intro htn
    exact ⟨collapseWs_eq_self _ (wsOk_normList cfg l htn (fun h2 => hok htn h2)),
      noFw_normList cfg l htn⟩
  · intro hpi
    exact noPunct_normList cfg l hpi
  · intro hcs
    exact lowered_normList cfg l hcs

theorem normList_idem_of (cfg : EvalConfig) (l : List Char)
    (hok : cfg.text_normalization = true → cfg.punctuation_ignore = true →
      NoPunct l ∧ NoFw l) :
    normList cfg (normList cfg l) = normList cfg l :=
  normList_eq_of_NF cfg _ (NF_of_normList cfg l hok)

theorem normalize_text_step (cfg : EvalConfig) (u : String)
    (hok : cfg.text_normalization = true → cfg.punctuation_ignore = true →
      NoPunct u.toList ∧ NoFw u.toList) :
    normalize_text cfg (normalize_text cfg u) = normalize_text cfg u := by
  by_cases hu : u = ""
  · subst hu
    rfl
  · have h1 : normalize_text cfg u = (normList cfg u.toList).asString := by
      unfold normalize_text
      rw [if_neg hu]
    rw [h1]
    by_cases h2 : (normList cfg u.toList).asString = ""
    · rw [h2]
      rfl
    · have h3 : normalize_text cfg ((normList cfg u.toList).asString) =
          (normList cfg ((normList cfg u.toList).asString).toList).asString := by
        unfold normalize_text
        rw [if_neg h2]
      rw [h3]
      have h4 : ((normList cfg u.toList).asString).toList = normList cfg u.toList := rfl
      rw [h4, normList_idem_of cfg u.toList hok]

/-! ### Claim C9 -/

/-- Counterexample to C9 as stated: with the default configuration
(text_normalization and punctuation_ignore both on), removing the comma of
"a , b" leaves a double blank that only a second pass collapses, so
normalize_text is not idempotent. -/
theorem C9_counterexample :
    normalize_text ⟨true, true, false, 60, 90⟩ "a , b" = "a  b" ∧
    normalize_text ⟨true, true, false, 60, 90⟩ "a  b" = "a b" ∧
    normalize_text ⟨true, true, false, 60, 90⟩
        (normalize_text ⟨true, true, false, 60, 90⟩ "a , b") ≠
      normalize_text ⟨true, true, false, 60, 90⟩ "a , b" := by
  refine ⟨rfl, rfl, ?_⟩
  intro hcontra
  have h2 : ("a b" : String) = "a  b" := hcontra
  exact absurd h2 (by decide)

/-- C9 (amended): normalize_text is idempotent for every configuration in
which whitespace collapsing (text_normalization) and punctuation removal
(punctuation_ignore) are not both enabled; when both are enabled a third
application never changes the result of the second, i.e. the double
application is idempotent. -/
theorem C9_normalize_idempotent_amended (cfg : EvalConfig) (s : String) :
    (cfg.text_normalization = false ∨ cfg.punctuation_ignore = false →
      normalize_text cfg (normalize_text cfg s) = normalize_text cfg s) ∧
    normalize_text cfg (normalize_text cfg (normalize_text cfg s)) =
      normalize_text cfg (normalize_text cfg s) := by
  constructor
  · intro hcase
    apply normalize_text_step
    intro htn hpi
    rcases hcase with hc | hc
    · rw [hc] at htn
      cases htn
    · rw [hc] at hpi
      cases hpi
  · apply normalize_text_step
    intro htn hpi
    by_cases hs : s = ""
    · subst hs
      constructor <;> intro c hc <;> cases hc
    · have h1 : normalize_text cfg s = (normList cfg s.toList).asString := by
        unfold normalize_text
        rw [if_neg hs]
      rw [h1]
      have h4 : ((normList cfg s.toList).asString).toList = normList cfg s.toList := rfl
      rw [h4]
      exact ⟨noPunct_normList cfg s.toList hpi, noFw_normList cfg s.toList htn⟩

/-- Witness for C9: with punctuation removal disabled, normalizing an
already-normalized string is the identity. -/
theorem C9_normalize_idempotent_amended_witness :
    normalize_text ⟨true, false, false, 60, 90⟩
        (normalize_text ⟨true, false, false, 60, 90⟩ " Hello ,  World ") =
      normalize_text ⟨true, false, false, 60, 90⟩ " Hello ,  World " :=
  (C9_normalize_idempotent_amended ⟨true, false, false, 60, 90⟩
    " Hello ,  World ").1 (Or.inr rfl)

end SpeechEval
